import Mathlib

/-!
# Operation Tidebreak: the update / game-state core

A shallow embedding of the simulation core of `P15_58_6188_Hatem.cpp`
(vector arithmetic, the camera, the player integrator, the goal registry, the
countdown and the win/lose transition, the prop animators) together with the
properties of the specification that it satisfies.  The step of the earlier
version `P15-59-6188.cpp` is embedded under `P59` and compared with it.

The program computes on `float`.  The embedding is written over an arbitrary
linearly ordered field `K` (exact arithmetic); the four libm functions the
program calls are collected in `MathLib K` and passed explicitly.  Every
definition is computable for a computable `K`; the interpretation over the
reals is `realMath`.  Where a property states exact values that binary32
rounding does not give, the rounding itself is modelled on the rationals by
`roundF32`.
-/

set_option linter.unusedSectionVars false

namespace Tidebreak

/-- The libm functions called by the program (`sqrtf`, `atan2f`, `cosf`,
`sinf`), over the carrier `K`. -/
structure MathLib (K : Type) where
  sqrtf : K → K
  atan2f : K → K → K
  cosf : K → K
  sinf : K → K

/-- The square root is exact: non-negative, and squaring it gives back every
non-negative argument. -/
structure ExactSqrt {K : Type} [LinearOrderedField K] (m : MathLib K) : Prop where
  sqrt_nonneg : ∀ x : K, 0 ≤ m.sqrtf x
  sqrt_mul_self : ∀ x : K, 0 ≤ x → m.sqrtf x * m.sqrtf x = x

/-- The libm functions over the real numbers. -/
noncomputable def realMath : MathLib ℝ where
  sqrtf := Real.sqrt
  atan2f := fun y x => Complex.arg ⟨x, y⟩
  cosf := Real.cos
  sinf := Real.sin

/-- The class `Vector3f`. -/
structure Vector3f (K : Type) where
  x : K
  y : K
  z : K

namespace Vector3f

variable {K : Type} [LinearOrderedField K]

/-- The default constructor `Vector3f()`. -/
def zero : Vector3f K := ⟨0, 0, 0⟩

/-- The `operator+`. -/
def add (a v : Vector3f K) : Vector3f K := ⟨a.x + v.x, a.y + v.y, a.z + v.z⟩

/-- The `operator-`. -/
def sub (a v : Vector3f K) : Vector3f K := ⟨a.x - v.x, a.y - v.y, a.z - v.z⟩

/-- The `operator*` (by a scalar). -/
def mul (a : Vector3f K) (n : K) : Vector3f K := ⟨a.x * n, a.y * n, a.z * n⟩

/-- The `operator/` (by a scalar). -/
def div (a : Vector3f K) (n : K) : Vector3f K := ⟨a.x / n, a.y / n, a.z / n⟩

/-- The method `length()`. -/
def length (m : MathLib K) (a : Vector3f K) : K :=
  m.sqrtf (a.x * a.x + a.y * a.y + a.z * a.z)

/-- The method `unit()`. -/
def unit (m : MathLib K) (a : Vector3f K) : Vector3f K :=
  let len := a.length m
  if len = 0 then zero else a.div len

/-- The method `cross`. -/
def cross (a v : Vector3f K) : Vector3f K :=
  ⟨a.y * v.z - a.z * v.y, a.z * v.x - a.x * v.z, a.x * v.y - a.y * v.x⟩

end Vector3f

/-- The enumeration `GameState`. -/
inductive GameState where
  | STATE_PLAYING
  | STATE_WIN
  | STATE_LOSE
  deriving DecidableEq, Repr

open GameState

/-- The struct `Player`. -/
structure Player (K : Type) where
  position : Vector3f K
  velocity : Vector3f K
  yaw : K
  tilt : K
  airborne : Bool

/-- The struct `Goal`. -/
structure Goal (K : Type) where
  position : Vector3f K
  collected : Bool

/-- The struct `AnimationController`. -/
structure AnimationController (K : Type) where
  active : Bool
  phase : K

/-- The global variables of the program that make up a play session.  The
camera is a separate global and is not touched by any function below. -/
structure Game (K : Type) where
  player : Player K
  goals : List (Goal K)
  objectControllers : Fin 5 → AnimationController K
  loseSoundPlayed : Bool
  winSoundPlayed : Bool
  gameState : GameState
  moveForward : Bool
  moveBackward : Bool
  moveLeft : Bool
  moveRight : Bool
  moveUp : Bool
  moveDown : Bool
  goalRotation : K
  wallColorPhase : K
  remainingTime : K
  lastTick : Int

variable {K : Type} [LinearOrderedField K]

def SCENE_HALF : K := 1.0
def GROUND_Y : K := 0.0
def MAX_HEIGHT : K := 0.85
def PLAYER_RADIUS : K := 0.05
def PLAYER_SPEED : K := 0.65
def PLAYER_ASCEND_SPEED : K := 0.5
def GOAL_RADIUS : K := 0.12

/-- The globals as the program's static initialisers leave them, before
`main` calls `resetGame`. -/
def initialGame : Game K where
  player := ⟨Vector3f.zero, Vector3f.zero, 0, 0, false⟩
  goals := []
  objectControllers := fun _ => ⟨false, 0⟩
  loseSoundPlayed := false
  winSoundPlayed := false
  gameState := STATE_PLAYING
  moveForward := false
  moveBackward := false
  moveLeft := false
  moveRight := false
  moveUp := false
  moveDown := false
  goalRotation := 0.0
  wallColorPhase := 0.0
  remainingTime := 120.0
  lastTick := 0

/-- The function `goalsRemaining`, on the goal list. -/
def goalsRemaining : List (Goal K) → Nat
  | [] => 0
  | g :: gs => if !g.collected then goalsRemaining gs + 1 else goalsRemaining gs

/-- The function `initGoals`: the goal list it builds. -/
def initGoals : List (Goal K) :=
  [⟨⟨-0.55, 0.12, -0.45⟩, false⟩, ⟨⟨0.58, 0.18, 0.32⟩, false⟩, ⟨⟨0.1, 0.14, -0.05⟩, false⟩]

/-- The function `resetPlayer`: the player it installs. -/
def resetPlayer : Player K where
  position := ⟨0.0, PLAYER_RADIUS, 0.0⟩
  velocity := Vector3f.zero
  yaw := 0.0
  tilt := 0.0
  airborne := false

/-- The function `resetAnimations`: the controllers it installs. -/
def resetAnimations : Fin 5 → AnimationController K :=
  fun _ => ⟨false, 0.0⟩

/-- The function `resetGame`; `now` is the value of
`glutGet(GLUT_ELAPSED_TIME)`.  Starting the background music touches no
variable of the session. -/
def resetGame (now : Int) (_g : Game K) : Game K where
  gameState := STATE_PLAYING
  remainingTime := 120.0
  goalRotation := 0.0
  wallColorPhase := 0.0
  player := resetPlayer
  objectControllers := resetAnimations
  goals := initGoals
  moveForward := false
  moveBackward := false
  moveLeft := false
  moveRight := false
  moveUp := false
  moveDown := false
  loseSoundPlayed := false
  winSoundPlayed := false
  lastTick := now

/-- The function `clampf`. -/
def clampf (v minVal maxVal : K) : K :=
  if v < minVal then minVal
  else if v > maxVal then maxVal
  else v

/-- The direction vector that `handlePlayerMovement` builds from the four
planar intent flags. -/
def direction (g : Game K) : Vector3f K :=
  let d : Vector3f K := Vector3f.zero
  let d := if g.moveForward then { d with z := d.z - 1.0 } else d
  let d := if g.moveBackward then { d with z := d.z + 1.0 } else d
  let d := if g.moveLeft then { d with x := d.x - 1.0 } else d
  let d := if g.moveRight then { d with x := d.x + 1.0 } else d
  d

/-- The player position after the displacement statements of
`handlePlayerMovement` (planar step, then ascend, then descend), before the
clamps. -/
def movedPosition (m : MathLib K) (dt : K) (g : Game K) : Vector3f K :=
  let d := direction g
  let pos := g.player.position
  let pos := if d.length m > 0.0 then pos.add ((d.unit m).mul (PLAYER_SPEED * dt)) else pos
  let pos := if g.moveUp then { pos with y := pos.y + PLAYER_ASCEND_SPEED * dt } else pos
  let pos := if g.moveDown then { pos with y := pos.y - PLAYER_ASCEND_SPEED * dt } else pos
  pos

/-- The yaw that `handlePlayerMovement` leaves in `player.yaw`. -/
def movedYaw (m : MathLib K) (g : Game K) : K :=
  let d := direction g
  if d.length m > 0.0 then
    let dirUnit := d.unit m
    m.atan2f dirUnit.x (-dirUnit.z) * 180.0 / 3.14159265
  else g.player.yaw

/-- The three `clampf` statements of `handlePlayerMovement`. -/
def clampPosition (pos : Vector3f K) : Vector3f K :=
  let minY : K := PLAYER_RADIUS
  let wallThickness : K := 0.03
  { x := clampf pos.x (-SCENE_HALF + PLAYER_RADIUS + wallThickness)
      (SCENE_HALF - PLAYER_RADIUS - wallThickness)
    z := clampf pos.z (-SCENE_HALF + PLAYER_RADIUS + wallThickness)
      (SCENE_HALF - PLAYER_RADIUS - wallThickness)
    y := clampf pos.y minY MAX_HEIGHT }

/-- The function `handlePlayerMovement`. -/
def handlePlayerMovement (m : MathLib K) (dt : K) (g : Game K) : Game K :=
  let pos := clampPosition (movedPosition m dt g)
  let minY : K := PLAYER_RADIUS
  let onGround : Bool := decide (|pos.y - minY| < 0.002)
  let airborne := !onGround
  { g with
    player :=
      { position := pos
        velocity := g.player.velocity
        yaw := movedYaw m g
        tilt := if airborne then -20.0 else 0.0
        airborne := airborne } }

/-- The loop of `handleGoalCollection`: every uncollected goal closer to the
player than `GOAL_RADIUS` is marked collected. -/
def collectGoals (m : MathLib K) (pos : Vector3f K) : List (Goal K) → List (Goal K)
  | [] => []
  | g :: gs =>
    (if !g.collected then
      if (pos.sub g.position).length m < GOAL_RADIUS then { g with collected := true } else g
    else g) :: collectGoals m pos gs

/-- The function `handleGoalCollection`. -/
def handleGoalCollection (m : MathLib K) (g : Game K) : Game K :=
  let g := { g with goals := collectGoals m g.player.position g.goals }
  if goalsRemaining g.goals = 0 ∧ g.gameState = STATE_PLAYING then
    { g with gameState := STATE_WIN }
  else g

/-- The table `speed` of `updateAnimations`. -/
def speed : Fin 5 → K := ![1.2, 0.9, 1.6, 2.0, 1.4]

/-- The function `updateAnimations`. -/
def updateAnimations (dt : K) (g : Game K) : Game K :=
  { g with
    objectControllers := fun i =>
      if (g.objectControllers i).active then
        { g.objectControllers i with phase := (g.objectControllers i).phase + dt * speed i }
      else g.objectControllers i }

/-- The function `updateGame`. -/
def updateGame (m : MathLib K) (dt : K) (g : Game K) : Game K :=
  if g.gameState ≠ STATE_PLAYING then g
  else
    let g := { g with remainingTime := g.remainingTime - dt }
    let g :=
      if g.remainingTime ≤ 10.0 ∧ g.remainingTime > 9.9 ∧ !g.loseSoundPlayed then
        { g with loseSoundPlayed := true }
      else g
    let g :=
      if g.remainingTime ≤ 0.0 then
        { g with
          remainingTime := 0.0
          gameState := if goalsRemaining g.goals = 0 then STATE_WIN else STATE_LOSE }
      else g
    let g := { g with goalRotation := g.goalRotation + dt * 50.0 }
    let g := { g with wallColorPhase := g.wallColorPhase + dt * 0.7 }
    let g := handlePlayerMovement m dt g
    let g := updateAnimations dt g
    handleGoalCollection m g

/-- The function `toggleAnimation`. -/
def toggleAnimation (index : Int) (g : Game K) : Game K :=
  if h : index < 0 ∨ index ≥ 5 then g
  else
    let i : Fin 5 := ⟨index.toNat, by omega⟩
    { g with
      objectControllers := fun j =>
        if j = i then { g.objectControllers j with active := !(g.objectControllers j).active }
        else g.objectControllers j }

/-- The function `toggleAllAnimations`. -/
def toggleAllAnimations (g : Game K) : Game K :=
  { g with objectControllers := fun j => { g.objectControllers j with active := true } }

/-- The function `stopAllAnimations`. -/
def stopAllAnimations (g : Game K) : Game K :=
  { g with objectControllers := fun j => { g.objectControllers j with active := false } }

/-- The handler `Keyboard`, restricted to the session: the camera keys and the
view presets change only the camera, and the escape key ends the process. -/
def Keyboard (key : Char) (now : Int) (g : Game K) : Game K :=
  match key with
  | 'i' => { g with moveForward := true }
  | 'k' => { g with moveBackward := true }
  | 'j' => { g with moveLeft := true }
  | 'l' => { g with moveRight := true }
  | 'r' => { g with moveUp := true }
  | 'f' => { g with moveDown := true }
  | '5' => toggleAllAnimations g
  | '6' => stopAllAnimations g
  | 'p' => resetGame now g
  | 'P' => resetGame now g
  | _ => g

/-- The handler `KeyboardUp`. -/
def KeyboardUp (key : Char) (g : Game K) : Game K :=
  match key with
  | 'i' => { g with moveForward := false }
  | 'k' => { g with moveBackward := false }
  | 'j' => { g with moveLeft := false }
  | 'l' => { g with moveRight := false }
  | 'r' => { g with moveUp := false }
  | 'f' => { g with moveDown := false }
  | _ => g

/-- The planar and vertical intent flags set to given values (each flag is
set by `Keyboard` and cleared by `KeyboardUp`). -/
def setIntent (f b l r u d : Bool) (g : Game K) : Game K :=
  { g with
    moveForward := f, moveBackward := b, moveLeft := l, moveRight := r
    moveUp := u, moveDown := d }

/-- The states a session passes through: `resetGame` starts it, and it is then
advanced by `updateGame dt` for time steps `dt` admitted by `P`, by key
presses and releases, and by animation toggles. -/
inductive Reachable (m : MathLib K) (P : K → Prop) : Game K → Prop
  | reset (now : Int) (g0 : Game K) : Reachable m P (resetGame now g0)
  | update {g : Game K} (dt : K) :
      P dt → Reachable m P g → Reachable m P (updateGame m dt g)
  | keyDown {g : Game K} (key : Char) (now : Int) :
      Reachable m P g → Reachable m P (Keyboard key now g)
  | keyUp {g : Game K} (key : Char) :
      Reachable m P g → Reachable m P (KeyboardUp key g)
  | toggle {g : Game K} (index : Int) :
      Reachable m P g → Reachable m P (toggleAnimation index g)

/-- The play-field bounds of the player position. -/
def inBounds (p : Vector3f K) : Prop :=
  (-0.92 ≤ p.x ∧ p.x ≤ 0.92) ∧ (-0.92 ≤ p.z ∧ p.z ≤ 0.92) ∧ (0.05 ≤ p.y ∧ p.y ≤ 0.85)

/-- A sequence of `updateGame` calls, one per element of `dts`. -/
def steps (m : MathLib K) (dts : List K) (g : Game K) : Game K :=
  dts.foldl (fun s dt => updateGame m dt s) g

/-- The effect of the collection loop on one goal. -/
def collectOne (m : MathLib K) (pos : Vector3f K) (goal : Goal K) : Goal K :=
  ⟨goal.position,
    goal.collected || decide ((pos.sub goal.position).length m < GOAL_RADIUS)⟩

/-- The outcome that the countdown part of `updateGame` leaves. -/
def timerState (dt : K) (g : Game K) : GameState :=
  if g.remainingTime - dt ≤ 0 then
    if goalsRemaining g.goals = 0 then STATE_WIN else STATE_LOSE
  else STATE_PLAYING

/-- A session in its last second: the first two goals are collected and the
player stands exactly on the third, which is not. -/
def lastGoalAtTimeout : Game K :=
  { (resetGame 0 initialGame : Game K) with
    player := { (resetPlayer : Player K) with position := ⟨0.1, 0.14, -0.05⟩ }
    goals :=
      [⟨⟨-0.55, 0.12, -0.45⟩, true⟩, ⟨⟨0.58, 0.18, 0.32⟩, true⟩, ⟨⟨0.1, 0.14, -0.05⟩, false⟩]
    remainingTime := 1 }

/-- One frame of play: the six intent flags as the key handlers left them,
then `updateGame dt`. -/
def frame (m : MathLib K) (f b l r u d : Bool) (dt : K) (g : Game K) : Game K :=
  updateGame m dt (setIntent f b l r u d g)

/-- The key `key` pressed (`down = true`) or released. -/
def pressOrRelease (key : Char) (down : Bool) (g : Game K) : Game K :=
  if down then Keyboard key 0 g else KeyboardUp key g

/-- The displacement of `movedPosition` when the planar direction is zero or
along one axis (its length is then 0 or 1, and no square root is left). -/
def axisMoved (dt : K) (f b l r u d : Bool) (pos : Vector3f K) : Vector3f K :=
  { x := pos.x + ((if r then 1 else 0) - (if l then 1 else 0)) * (PLAYER_SPEED * dt)
    y := pos.y + (if u then PLAYER_ASCEND_SPEED * dt else 0)
      - (if d then PLAYER_ASCEND_SPEED * dt else 0)
    z := pos.z + ((if b then 1 else 0) - (if f then 1 else 0)) * (PLAYER_SPEED * dt) }

/-- The collection test on squared distances. -/
def collectOneSq (pos : Vector3f K) (goal : Goal K) : Goal K :=
  ⟨goal.position,
    goal.collected ||
      decide ((pos.x - goal.position.x) * (pos.x - goal.position.x)
        + (pos.y - goal.position.y) * (pos.y - goal.position.y)
        + (pos.z - goal.position.z) * (pos.z - goal.position.z) < GOAL_RADIUS * GOAL_RADIUS)⟩

/-- A session from `resetGame` in six frames whose durations are binary32
values adding up to exactly 120 seconds: rise for 0.25 s (collects the third
goal), go left for 0.875 s, forward for 0.6875 s (collects the first goal),
right for 1.75 s, wait 115.25 s, then go backward for the 1.1875 s that are
left, which runs the clock out and ends next to the second goal. -/
def lostWithAllGoals (m : MathLib K) : Game K :=
  frame m false true false false false false 1.1875
    (frame m false false false false false false 115.25
      (frame m false false false true false false 1.75
        (frame m true false false false false false 0.6875
          (frame m false false true false false false 0.875
            (frame m false false false false true false 0.25
              (resetGame 0 initialGame))))))

/-- The class `Camera`. -/
structure Camera (K : Type) where
  eye : Vector3f K
  center : Vector3f K
  up : Vector3f K

/-- The global `camera` as it is constructed at program start. -/
def initialCamera : Camera K :=
  ⟨⟨1.8, 0.9, 1.8⟩, ⟨0.0, 0.3, 0.0⟩, ⟨0.0, 1.0, 0.0⟩⟩

/-- Scenario A: `resetGame`, the forward key pressed, then `k` calls of
`updateGame 0.1`. -/
def scenarioA (m : MathLib K) (k : Nat) : Game K :=
  steps m (List.replicate k 0.1) (Keyboard 'i' 0 (resetGame 0 initialGame))

/-- The relation between height, `airborne` and `tilt` that
`handlePlayerMovement` establishes. -/
def heightDerived (p : Player K) : Prop :=
  (p.airborne = true ↔ 0.002 ≤ |p.position.y - PLAYER_RADIUS|) ∧
  p.tilt = if p.airborne then -20 else 0

/-- What the driver can do to a session between two restarts: a timer tick
`updateGame dt`, a key press, a key release, or `toggleAnimation`. -/
inductive Input (K : Type) where
  | tick (dt : K)
  | press (key : Char) (now : Int)
  | release (key : Char)
  | toggle (index : Int)

/-- The session after one input. -/
def applyInput (m : MathLib K) : Input K → Game K → Game K
  | Input.tick dt, g => updateGame m dt g
  | Input.press key now, g => Keyboard key now g
  | Input.release key, g => KeyboardUp key g
  | Input.toggle index, g => toggleAnimation index g

/-- The restart key (`p` or `P`), which calls `resetGame`. -/
def isRestart : Input K → Bool
  | Input.press key _ => key = 'p' || key = 'P'
  | _ => false

/-- The guard under which `updateGame dt` calls `playEffect(SOUND_BUZZER)`:
the session is being played and, after the decrement, the remaining time is
in the window and the latch is not set. -/
def buzzerFires (dt : K) (g : Game K) : Bool :=
  decide (g.gameState = STATE_PLAYING ∧
    (g.remainingTime - dt ≤ 10.0 ∧ g.remainingTime - dt > 9.9 ∧ !g.loseSoundPlayed))

/-- The number of buzzer events along a list of inputs. -/
def buzzerCount (m : MathLib K) : List (Input K) → Game K → Nat
  | [], _ => 0
  | Input.tick dt :: rest, g =>
    (if buzzerFires dt g then 1 else 0) + buzzerCount m rest (updateGame m dt g)
  | i :: rest, g => buzzerCount m rest (applyInput m i g)

/-- The macro `DEG2RAD`. -/
def DEG2RAD (a : K) : K := a * 0.0174532925

/-- The method `Camera::rotateY`.  Its last but one statement,
`right = rotated.cross(up)`, assigns a local variable only. -/
def Camera.rotateY (m : MathLib K) (c : Camera K) (a : K) : Camera K :=
  let view := (c.center.sub c.eye).unit m
  let right := (c.up.cross view).unit m
  let rad := DEG2RAD a
  let rotated := (view.mul (m.cosf rad)).add (right.mul (m.sinf rad))
  { c with center := c.eye.add rotated }

/-- The camera that `setTopView` installs. -/
def topViewCamera : Camera K :=
  ⟨⟨0.0, 2.2, 0.0⟩, ⟨0.0, 0.0, 0.0⟩, ⟨0.0, 0.0, -1.0⟩⟩

/-- The scalar product of two vectors (not a method of the class; used to
state perpendicularity). -/
def Vector3f.dot (a v : Vector3f K) : K := a.x * v.x + a.y * v.y + a.z * v.z

/-- The sine and cosine satisfy the Pythagorean identity. -/
def ExactTrig (m : MathLib K) : Prop :=
  ∀ x : K, m.cosf x * m.cosf x + m.sinf x * m.sinf x = 1

/-- The three `clampf` statements of `handlePlayerMovement` in
`P15-59-6188.cpp`: no wall thickness. -/
def P59.clampPosition (pos : Vector3f K) : Vector3f K :=
  let minY : K := PLAYER_RADIUS
  { x := clampf pos.x (-SCENE_HALF + PLAYER_RADIUS) (SCENE_HALF - PLAYER_RADIUS)
    z := clampf pos.z (-SCENE_HALF + PLAYER_RADIUS) (SCENE_HALF - PLAYER_RADIUS)
    y := clampf pos.y minY MAX_HEIGHT }

/-- The function `handlePlayerMovement` of `P15-59-6188.cpp`; its displacement
statements are those of the other version (`movedPosition`, `movedYaw`). -/
def P59.handlePlayerMovement (m : MathLib K) (dt : K) (g : Game K) : Game K :=
  let pos := P59.clampPosition (movedPosition m dt g)
  let minY : K := PLAYER_RADIUS
  let onGround : Bool := decide (|pos.y - minY| < 0.002)
  let airborne := !onGround
  { g with
    player :=
      { position := pos
        velocity := g.player.velocity
        yaw := movedYaw m g
        tilt := if airborne then -20.0 else 0.0
        airborne := airborne } }

/-- The function `updateGame` of `P15-59-6188.cpp`.  That version has no sound
latches; they are carried along unchanged.  Its `handleGoalCollection` and
`updateAnimations` are those of the other version without the `playEffect`
call. -/
def P59.updateGame (m : MathLib K) (dt : K) (g : Game K) : Game K :=
  if g.gameState ≠ STATE_PLAYING then g
  else
    let g := { g with remainingTime := g.remainingTime - dt }
    let g :=
      if g.remainingTime ≤ 0.0 then
        { g with
          remainingTime := 0.0
          gameState := if goalsRemaining g.goals = 0 then STATE_WIN else STATE_LOSE }
      else g
    let g := { g with goalRotation := g.goalRotation + dt * 50.0 }
    let g := { g with wallColorPhase := g.wallColorPhase + dt * 0.7 }
    let g := P59.handlePlayerMovement m dt g
    let g := updateAnimations dt g
    handleGoalCollection m g

/-- Rounding of a rational to the nearest integer, ties to the even one. -/
def roundHalfEven (x : ℚ) : ℤ :=
  let f := ⌊x⌋
  if x - f < 1 / 2 then f
  else if 1 / 2 < x - f then f + 1
  else if f % 2 = 0 then f else f + 1

/-- IEEE 754 binary32 rounding of a rational (round to nearest, ties to even;
overflow left aside): a value with `2 ^ k ≤ |q| < 2 ^ (k + 1)` is rounded to a
multiple of `2 ^ (k - 23)`, the significand having 24 bits, and `k` is not
taken below -126. -/
def roundF32 (q : ℚ) : ℚ :=
  if q = 0 then 0
  else
    let e : ℤ := max (Int.log 2 |q|) (-126) - 23
    (roundHalfEven (q / 2 ^ e) : ℚ) * 2 ^ e

/-- The statements of `updateGame` that write `remainingTime`, computed in
binary32: the decrement is rounded, and a result that is not positive is set
to 0. -/
def remainingTimeF32 (dt rt : ℚ) : ℚ :=
  let rt := roundF32 (rt - dt)
  if rt ≤ 0 then 0 else rt

/-- The statements of `handlePlayerMovement` that write `player.position.y`
when no planar flag is held, computed in binary32. -/
def heightF32 (moveUp moveDown : Bool) (dt y : ℚ) : ℚ :=
  let y := if moveUp then roundF32 (y + roundF32 (roundF32 0.5 * dt)) else y
  let y := if moveDown then roundF32 (y - roundF32 (roundF32 0.5 * dt)) else y
  clampf y (roundF32 0.05) (roundF32 0.85)

/-! ## Basic facts -/

theorem float_zero : (0.0 : K) = 0 := by norm_num

theorem clampf_mem (v lo hi : K) (h : lo ≤ hi) :
    lo ≤ clampf v lo hi ∧ clampf v lo hi ≤ hi := by
  unfold clampf
  split_ifs with h1 h2
  · exact ⟨le_refl _, h⟩
  · exact ⟨h, le_refl _⟩
  · exact ⟨not_lt.mp h1, not_lt.mp h2⟩

theorem clampf_id (v lo hi : K) (h1 : lo ≤ v) (h2 : v ≤ hi) : clampf v lo hi = v := by
  unfold clampf
  rw [if_neg (not_lt.mpr h1), if_neg (not_lt.mpr h2)]

theorem wall_lo : (-SCENE_HALF + PLAYER_RADIUS + 0.03 : K) = -0.92 := by
  norm_num [SCENE_HALF, PLAYER_RADIUS]

theorem wall_hi : (SCENE_HALF - PLAYER_RADIUS - 0.03 : K) = 0.92 := by
  norm_num [SCENE_HALF, PLAYER_RADIUS]

theorem clampPosition_eq (pos : Vector3f K) :
    clampPosition pos =
      ⟨clampf pos.x (-0.92) 0.92, clampf pos.y 0.05 0.85, clampf pos.z (-0.92) 0.92⟩ := by
  simp only [clampPosition]
  rw [wall_lo, wall_hi]
  rfl

theorem clampPosition_inBounds (pos : Vector3f K) : inBounds (clampPosition pos) := by
  have h1 : (-0.92 : K) ≤ 0.92 := by norm_num
  have h2 : (0.05 : K) ≤ 0.85 := by norm_num
  rw [clampPosition_eq]
  exact ⟨clampf_mem _ _ _ h1, clampf_mem _ _ _ h1, clampf_mem _ _ _ h2⟩

theorem clampPosition_of_inBounds (pos : Vector3f K) (h : inBounds pos) :
    clampPosition pos = pos := by
  obtain ⟨⟨hx1, hx2⟩, ⟨hz1, hz2⟩, hy1, hy2⟩ := h
  rw [clampPosition_eq, clampf_id _ _ _ hx1 hx2, clampf_id _ _ _ hy1 hy2,
    clampf_id _ _ _ hz1 hz2]

@[simp] theorem handlePlayerMovement_position (m : MathLib K) (dt : K) (g : Game K) :
    (handlePlayerMovement m dt g).player.position = clampPosition (movedPosition m dt g) :=
  rfl

theorem handlePlayerMovement_inBounds (m : MathLib K) (dt : K) (g : Game K) :
    inBounds (handlePlayerMovement m dt g).player.position :=
  clampPosition_inBounds _

@[simp] theorem handleGoalCollection_player (m : MathLib K) (g : Game K) :
    (handleGoalCollection m g).player = g.player := by
  unfold handleGoalCollection
  dsimp only
  split_ifs <;> rfl

@[simp] theorem updateAnimations_player (dt : K) (g : Game K) :
    (updateAnimations dt g).player = g.player := rfl

theorem updateGame_of_not_playing (m : MathLib K) (dt : K) (g : Game K)
    (h : g.gameState ≠ STATE_PLAYING) : updateGame m dt g = g := by
  unfold updateGame
  rw [if_pos h]

theorem updateGame_inBounds (m : MathLib K) (dt : K) (g : Game K)
    (h : g.gameState = STATE_PLAYING) : inBounds (updateGame m dt g).player.position := by
  unfold updateGame
  rw [if_neg (by simp [h])]
  simp only [handleGoalCollection_player, updateAnimations_player]
  exact handlePlayerMovement_inBounds _ _ _

theorem resetGame_inBounds (now : Int) (g : Game K) :
    inBounds (resetGame now g).player.position := by
  simp only [resetGame, resetPlayer, inBounds, PLAYER_RADIUS]
  norm_num

theorem Keyboard_player_inBounds (key : Char) (now : Int) (g : Game K)
    (h : inBounds g.player.position) : inBounds (Keyboard key now g).player.position := by
  unfold Keyboard
  split <;> first | exact h | exact resetGame_inBounds _ _

theorem KeyboardUp_player (key : Char) (g : Game K) :
    (KeyboardUp key g).player = g.player := by
  unfold KeyboardUp
  split <;> rfl

theorem toggleAnimation_player (index : Int) (g : Game K) :
    (toggleAnimation index g).player = g.player := by
  unfold toggleAnimation
  split_ifs <;> rfl

theorem goalsRemaining_eq_zero_iff (gs : List (Goal K)) :
    goalsRemaining gs = 0 ↔ ∀ goal ∈ gs, goal.collected = true := by
  induction gs with
  | nil => simp [goalsRemaining]
  | cons goal gs ih =>
    cases hc : goal.collected <;> simp [goalsRemaining, hc, ih]

theorem collectGoals_eq_map (m : MathLib K) (pos : Vector3f K) (gs : List (Goal K)) :
    collectGoals m pos gs = gs.map (collectOne m pos) := by
  induction gs with
  | nil => rfl
  | cons goal gs ih =>
    simp only [collectGoals, List.map_cons, ih, collectOne]
    congr 1
    obtain ⟨gp, gc⟩ := goal
    cases gc
    · by_cases hd : (pos.sub gp).length m < GOAL_RADIUS <;> simp [hd]
    · simp

theorem collectGoals_remaining_zero (m : MathLib K) (pos : Vector3f K) (gs : List (Goal K))
    (h : goalsRemaining gs = 0) : goalsRemaining (collectGoals m pos gs) = 0 := by
  rw [goalsRemaining_eq_zero_iff] at h ⊢
  rw [collectGoals_eq_map]
  intro goal hg
  obtain ⟨g0, hg0, rfl⟩ := List.mem_map.mp hg
  simp [collectOne, h g0 hg0]

theorem handleGoalCollection_eq (m : MathLib K) (g : Game K) :
    handleGoalCollection m g =
      { g with
        goals := collectGoals m g.player.position g.goals
        gameState :=
          if goalsRemaining (collectGoals m g.player.position g.goals) = 0 ∧
              g.gameState = STATE_PLAYING then STATE_WIN
          else g.gameState } := by
  unfold handleGoalCollection
  dsimp only
  split_ifs <;> rfl

/-- One `updateGame` call on a session that is still being played, field by
field. -/
theorem updateGame_playing_eq (m : MathLib K) (dt : K) (g : Game K)
    (h : g.gameState = STATE_PLAYING) :
    updateGame m dt g =
      { player :=
          { position := clampPosition (movedPosition m dt g)
            velocity := g.player.velocity
            yaw := movedYaw m g
            tilt :=
              if (!decide (|(clampPosition (movedPosition m dt g)).y - PLAYER_RADIUS| < 0.002))
              then -20.0 else 0.0
            airborne :=
              !decide (|(clampPosition (movedPosition m dt g)).y - PLAYER_RADIUS| < 0.002) }
        goals := collectGoals m (clampPosition (movedPosition m dt g)) g.goals
        objectControllers := (updateAnimations dt g).objectControllers
        loseSoundPlayed :=
          if g.remainingTime - dt ≤ 10.0 ∧ g.remainingTime - dt > 9.9 ∧ !g.loseSoundPlayed
          then true else g.loseSoundPlayed
        winSoundPlayed := g.winSoundPlayed
        gameState :=
          if goalsRemaining (collectGoals m (clampPosition (movedPosition m dt g)) g.goals) = 0 ∧
              timerState dt g = STATE_PLAYING then STATE_WIN
          else timerState dt g
        moveForward := g.moveForward
        moveBackward := g.moveBackward
        moveLeft := g.moveLeft
        moveRight := g.moveRight
        moveUp := g.moveUp
        moveDown := g.moveDown
        goalRotation := g.goalRotation + dt * 50.0
        wallColorPhase := g.wallColorPhase + dt * 0.7
        remainingTime := max 0 (g.remainingTime - dt)
        lastTick := g.lastTick } := by
  have h0 : (0.0 : K) = 0 := by norm_num
  unfold updateGame
  rw [if_neg (by simp [h])]
  dsimp only
  by_cases hb : g.remainingTime - dt ≤ 10.0 ∧ g.remainingTime - dt > 9.9 ∧ !g.loseSoundPlayed
  · simp only [if_pos hb]
    by_cases ht : g.remainingTime - dt ≤ 0
    · simp only [if_pos (h0 ▸ ht)]
      simp [handleGoalCollection_eq, handlePlayerMovement, updateAnimations, timerState, ht,
        movedPosition, movedYaw, direction, h0]
    · simp only [if_neg (h0 ▸ ht)]
      simp [handleGoalCollection_eq, handlePlayerMovement, updateAnimations, timerState, ht,
        movedPosition, movedYaw, direction, h, le_of_lt (not_le.mp ht), h0]
  · simp only [if_neg hb]
    by_cases ht : g.remainingTime - dt ≤ 0
    · simp only [if_pos (h0 ▸ ht)]
      simp [handleGoalCollection_eq, handlePlayerMovement, updateAnimations, timerState, ht,
        movedPosition, movedYaw, direction, h0]
    · simp only [if_neg (h0 ▸ ht)]
      simp [handleGoalCollection_eq, handlePlayerMovement, updateAnimations, timerState, ht,
        movedPosition, movedYaw, direction, h, le_of_lt (not_le.mp ht), h0]

theorem realMath_sqrt_zero : realMath.sqrtf 0 = 0 := Real.sqrt_zero

theorem realMath_exact : ExactSqrt realMath where
  sqrt_nonneg := Real.sqrt_nonneg
  sqrt_mul_self := fun _ hx => Real.mul_self_sqrt hx

theorem ExactSqrt.sqrt_zero {m : MathLib K} (hm : ExactSqrt m) : m.sqrtf 0 = 0 := by
  have h := hm.sqrt_mul_self 0 (le_refl 0)
  exact mul_self_eq_zero.mp h

theorem length_sub_self (m : MathLib K) (hs : m.sqrtf 0 = 0) (p : Vector3f K) :
    (p.sub p).length m = 0 := by
  simp [Vector3f.sub, Vector3f.length, hs]

theorem direction_idle (g : Game K) (hf : g.moveForward = false) (hb : g.moveBackward = false)
    (hl : g.moveLeft = false) (hr : g.moveRight = false) : direction g = Vector3f.zero := by
  simp [direction, hf, hb, hl, hr]

theorem movedPosition_idle (m : MathLib K) (hs : m.sqrtf 0 = 0) (dt : K) (g : Game K)
    (hf : g.moveForward = false) (hb : g.moveBackward = false)
    (hl : g.moveLeft = false) (hr : g.moveRight = false)
    (hu : g.moveUp = false) (hd : g.moveDown = false) :
    movedPosition m dt g = g.player.position := by
  simp [movedPosition, direction_idle g hf hb hl hr, Vector3f.zero, Vector3f.length, hs, hu, hd,
    float_zero]

theorem updateGame_goals_getElem? (m : MathLib K) (dt : K) (g : Game K)
    (h : g.gameState = STATE_PLAYING) (i : Nat) :
    (updateGame m dt g).goals[i]? =
      (g.goals[i]?).map (collectOne m (updateGame m dt g).player.position) := by
  rw [updateGame_playing_eq m dt g h]
  simp only [collectGoals_eq_map, List.getElem?_map]

theorem updateGame_remainingTime_nonneg (m : MathLib K) (dt : K) (g : Game K)
    (h : g.gameState = STATE_PLAYING) : 0 ≤ (updateGame m dt g).remainingTime := by
  rw [updateGame_playing_eq m dt g h]
  exact le_max_left _ _

theorem updateGame_remainingTime_le (m : MathLib K) (dt : K) (g : Game K)
    (hdt : 0 ≤ dt) (hrt : 0 ≤ g.remainingTime) :
    (updateGame m dt g).remainingTime ≤ g.remainingTime := by
  by_cases h : g.gameState = STATE_PLAYING
  · rw [updateGame_playing_eq m dt g h]
    exact max_le hrt (sub_le_self _ hdt)
  · rw [updateGame_of_not_playing m dt g h]

theorem Keyboard_goals (key : Char) (now : Int) (g : Game K)
    (h1 : key ≠ 'p') (h2 : key ≠ 'P') : (Keyboard key now g).goals = g.goals := by
  unfold Keyboard
  split <;> first | rfl | exact absurd rfl h1 | exact absurd rfl h2

theorem KeyboardUp_goals (key : Char) (g : Game K) :
    (KeyboardUp key g).goals = g.goals := by
  unfold KeyboardUp
  split <;> rfl

theorem toggleAnimation_goals (index : Int) (g : Game K) :
    (toggleAnimation index g).goals = g.goals := by
  unfold toggleAnimation
  split_ifs <;> rfl

theorem Keyboard_cases (key : Char) (now : Int) (g : Game K) :
    Keyboard key now g = resetGame now g ∨
      ((Keyboard key now g).goals = g.goals ∧ (Keyboard key now g).gameState = g.gameState ∧
        (Keyboard key now g).remainingTime = g.remainingTime) := by
  unfold Keyboard
  split <;> first | exact Or.inl rfl | exact Or.inr ⟨rfl, rfl, rfl⟩

theorem KeyboardUp_gameState (key : Char) (g : Game K) :
    (KeyboardUp key g).gameState = g.gameState := by
  unfold KeyboardUp
  split <;> rfl

theorem toggleAnimation_gameState (index : Int) (g : Game K) :
    (toggleAnimation index g).gameState = g.gameState := by
  unfold toggleAnimation
  split_ifs <;> rfl

theorem resetGame_goalsRemaining (now : Int) (g : Game K) :
    goalsRemaining (resetGame now g).goals = 3 := rfl

/-- What every reachable session satisfies: a won session has no goal left,
and a session with no goal left is not being played any more. -/
theorem outcome_invariant (m : MathLib K) (P : K → Prop) (g : Game K)
    (h : Reachable m P g) :
    (g.gameState = STATE_WIN → goalsRemaining g.goals = 0) ∧
    (goalsRemaining g.goals = 0 → g.gameState ≠ STATE_PLAYING) := by
  induction h with
  | reset now g0 =>
    refine ⟨fun hw => ?_, fun h0 => ?_⟩
    · exact absurd hw (by simp [resetGame])
    · rw [resetGame_goalsRemaining] at h0
      exact absurd h0 (by decide)
  | @update g dt _ _ ih =>
    by_cases hp : g.gameState = STATE_PLAYING
    · rw [updateGame_playing_eq m dt g hp]
      dsimp only
      by_cases h0 : goalsRemaining (collectGoals m (clampPosition (movedPosition m dt g)) g.goals) = 0
      · by_cases ht : timerState dt g = STATE_PLAYING
        · simp [h0, ht]
        · simp [h0, ht]
      · refine ⟨fun hw => ?_, fun h1 => absurd h1 h0⟩
        simp only [h0, false_and, if_false] at hw
        have hg : goalsRemaining g.goals = 0 := by
          unfold timerState at hw
          by_contra hne
          simp only [if_neg hne] at hw
          split_ifs at hw
        exact absurd (collectGoals_remaining_zero m _ g.goals hg) h0
    · rw [updateGame_of_not_playing m dt g hp]; exact ih
  | @keyDown g key now _ ih =>
    rcases Keyboard_cases key now g with he | ⟨hg, hs, _⟩
    · rw [he]
      refine ⟨fun hw => ?_, fun h0 => ?_⟩
      · exact absurd hw (by simp [resetGame])
      · rw [resetGame_goalsRemaining] at h0
        exact absurd h0 (by decide)
    · rw [hg, hs]; exact ih
  | keyUp key _ ih => rw [KeyboardUp_goals, KeyboardUp_gameState]; exact ih
  | toggle index _ ih => rw [toggleAnimation_goals, toggleAnimation_gameState]; exact ih

theorem float_one : (1.0 : K) = 1 := by norm_num

theorem ExactSqrt.sqrt_one {m : MathLib K} (hm : ExactSqrt m) : m.sqrtf 1 = 1 := by
  have h := hm.sqrt_mul_self 1 zero_le_one
  have h0 := hm.sqrt_nonneg 1
  nlinarith [h, h0]

theorem ExactSqrt.sqrt_lt_iff {m : MathLib K} (hm : ExactSqrt m) (x r : K) (hx : 0 ≤ x)
    (hr : 0 < r) : m.sqrtf x < r ↔ x < r * r := by
  have h := hm.sqrt_mul_self x hx
  have h0 := hm.sqrt_nonneg x
  rw [mul_self_lt_mul_self_iff h0 (le_of_lt hr), h]

theorem collectOne_eq_sq {m : MathLib K} (hm : ExactSqrt m) (pos : Vector3f K) (goal : Goal K) :
    collectOne m pos goal = collectOneSq pos goal := by
  have hR : (0 : K) < GOAL_RADIUS := by norm_num [GOAL_RADIUS]
  simp only [collectOne, collectOneSq, Vector3f.length, Vector3f.sub]
  congr 2
  exact decide_eq_decide.mpr (hm.sqrt_lt_iff _ _
    (add_nonneg (add_nonneg (mul_self_nonneg _) (mul_self_nonneg _)) (mul_self_nonneg _)) hR)

theorem movedPosition_axis {m : MathLib K} (hm : ExactSqrt m) (dt : K) (g : Game K)
    (hax : ¬ (g.moveForward ≠ g.moveBackward ∧ g.moveLeft ≠ g.moveRight)) :
    movedPosition m dt g =
      axisMoved dt g.moveForward g.moveBackward g.moveLeft g.moveRight g.moveUp g.moveDown
        g.player.position := by
  have h0 := hm.sqrt_zero
  have h1 := hm.sqrt_one
  obtain ⟨px, py, pz⟩ : ∃ px py pz, g.player.position = ⟨px, py, pz⟩ := ⟨_, _, _, rfl⟩
  cases hf : g.moveForward <;> cases hb : g.moveBackward <;> cases hl : g.moveLeft <;>
    cases hr : g.moveRight <;> cases hu : g.moveUp <;> cases hd : g.moveDown <;>
    simp [hf, hb, hl, hr] at hax <;>
    simp [movedPosition, axisMoved, direction, Vector3f.length, Vector3f.unit, Vector3f.div,
      Vector3f.add, Vector3f.mul, Vector3f.zero, h0, h1, float_zero, float_one, hf, hb, hl, hr,
      hu, hd]

theorem setIntent_eq_keys (f b l r u d : Bool) (g : Game K) :
    setIntent f b l r u d g =
      pressOrRelease 'f' d (pressOrRelease 'r' u (pressOrRelease 'l' r
        (pressOrRelease 'j' l (pressOrRelease 'k' b (pressOrRelease 'i' f g))))) := by
  have hi : ∀ (v : Bool) (x : Game K), pressOrRelease 'i' v x = { x with moveForward := v } := by
    intro v x; cases v <;> rfl
  have hk : ∀ (v : Bool) (x : Game K), pressOrRelease 'k' v x = { x with moveBackward := v } := by
    intro v x; cases v <;> rfl
  have hj : ∀ (v : Bool) (x : Game K), pressOrRelease 'j' v x = { x with moveLeft := v } := by
    intro v x; cases v <;> rfl
  have hl : ∀ (v : Bool) (x : Game K), pressOrRelease 'l' v x = { x with moveRight := v } := by
    intro v x; cases v <;> rfl
  have hr : ∀ (v : Bool) (x : Game K), pressOrRelease 'r' v x = { x with moveUp := v } := by
    intro v x; cases v <;> rfl
  have hf : ∀ (v : Bool) (x : Game K), pressOrRelease 'f' v x = { x with moveDown := v } := by
    intro v x; cases v <;> rfl
  rw [hi, hk, hj, hl, hr, hf]
  rfl

theorem Reachable.pressOrRelease {m : MathLib K} {P : K → Prop} {g : Game K}
    (h : Reachable m P g) (key : Char) (down : Bool) :
    Reachable m P (Tidebreak.pressOrRelease key down g) := by
  cases down
  · exact Reachable.keyUp key h
  · exact Reachable.keyDown key 0 h

theorem Reachable.frame {m : MathLib K} {P : K → Prop} {g : Game K}
    (h : Reachable m P g) (f b l r u d : Bool) (dt : K) (hdt : P dt) :
    Reachable m P (Tidebreak.frame m f b l r u d dt g) := by
  unfold Tidebreak.frame
  rw [setIntent_eq_keys]
  exact Reachable.update dt hdt
    (((((h.pressOrRelease 'i' f).pressOrRelease 'k' b).pressOrRelease 'j' l).pressOrRelease
      'l' r).pressOrRelease 'r' u |>.pressOrRelease 'f' d)

/-- One frame with a planar direction that is zero or along one axis, from a
session of which the outcome, the position, the goals and the remaining time
are known. -/
theorem frame_step {m : MathLib K} (hm : ExactSqrt m) (f b l r u d : Bool) (dt : K)
    (g : Game K) (pos : Vector3f K) (gs : List (Goal K)) (rt : K)
    (hax : ¬ (f ≠ b ∧ l ≠ r)) (hs : g.gameState = STATE_PLAYING)
    (hp : g.player.position = pos) (hg : g.goals = gs) (hr : g.remainingTime = rt)
    (pos1 : Vector3f K) (gs1 : List (Goal K))
    (hp1 : clampPosition (axisMoved dt f b l r u d pos) = pos1)
    (hg1 : gs.map (collectOneSq pos1) = gs1) :
    (frame m f b l r u d dt g).player.position = pos1 ∧
    (frame m f b l r u d dt g).goals = gs1 ∧
    (frame m f b l r u d dt g).remainingTime = max 0 (rt - dt) ∧
    (frame m f b l r u d dt g).gameState =
      if rt - dt ≤ 0 then (if goalsRemaining gs = 0 then STATE_WIN else STATE_LOSE)
      else if goalsRemaining gs1 = 0 then STATE_WIN else STATE_PLAYING := by
  have hmv : clampPosition (movedPosition m dt (setIntent f b l r u d g)) = pos1 := by
    rw [movedPosition_axis hm dt _ hax]
    simp only [setIntent, hp, hp1]
  have hgs : collectGoals m pos1 gs = gs1 := by
    rw [collectGoals_eq_map, ← hg1]
    exact List.map_congr_left (fun goal _ => collectOne_eq_sq hm pos1 goal)
  have hs1 : (setIntent f b l r u d g).gameState = STATE_PLAYING := hs
  unfold frame
  rw [updateGame_playing_eq m dt _ hs1, hmv]
  simp only [setIntent, hg, hr, hgs, timerState]
  refine ⟨trivial, trivial, trivial, ?_⟩
  by_cases ht : rt - dt ≤ 0
  · by_cases h0 : goalsRemaining gs = 0 <;> simp [ht, h0]
  · simp [ht]

set_option maxHeartbeats 1600000 in
/-- The six frames of `lostWithAllGoals`, evaluated: the session ends lost,
next to the second goal, with every goal collected and no time left. -/
theorem lostWithAllGoals_eval {m : MathLib K} (hm : ExactSqrt m) :
    (lostWithAllGoals m).gameState = STATE_LOSE ∧
    (lostWithAllGoals m).goals =
      [⟨⟨-0.55, 0.12, -0.45⟩, true⟩, ⟨⟨0.58, 0.18, 0.32⟩, true⟩, ⟨⟨0.1, 0.14, -0.05⟩, true⟩] ∧
    (lostWithAllGoals m).player.position = ⟨0.56875, 0.175, 0.325⟩ ∧
    (lostWithAllGoals m).remainingTime = 0 := by
  unfold lostWithAllGoals
  -- frame 1: rise
  obtain ⟨p1, g1, r1, s1⟩ := frame_step hm false false false false true false 0.25
    (resetGame 0 initialGame) ⟨0.0, PLAYER_RADIUS, 0.0⟩ initGoals 120.0
    (by decide) rfl rfl rfl rfl ⟨0, 0.175, 0⟩
    [⟨⟨-0.55, 0.12, -0.45⟩, false⟩, ⟨⟨0.58, 0.18, 0.32⟩, false⟩, ⟨⟨0.1, 0.14, -0.05⟩, true⟩]
    (by rw [clampPosition_eq]
        norm_num [axisMoved, clampf, PLAYER_RADIUS, PLAYER_SPEED, PLAYER_ASCEND_SPEED])
    (by norm_num [initGoals, collectOneSq, GOAL_RADIUS])
  have r1n : (max 0 (120.0 - 0.25) : K) = 119.75 := by norm_num
  have s1n : (frame m false false false false true false 0.25
      (resetGame 0 initialGame)).gameState = STATE_PLAYING := by
    rw [s1]; norm_num [goalsRemaining]
  rw [r1n] at r1
  -- frame 2: left
  obtain ⟨p2, g2, r2, s2⟩ := frame_step hm false false true false false false 0.875
    _ _ _ _ (by decide) s1n p1 g1 r1 ⟨-0.56875, 0.175, 0⟩
    [⟨⟨-0.55, 0.12, -0.45⟩, false⟩, ⟨⟨0.58, 0.18, 0.32⟩, false⟩, ⟨⟨0.1, 0.14, -0.05⟩, true⟩]
    (by rw [clampPosition_eq]
        norm_num [axisMoved, clampf, PLAYER_RADIUS, PLAYER_SPEED, PLAYER_ASCEND_SPEED])
    (by norm_num [collectOneSq, GOAL_RADIUS])
  have r2n : (max 0 (119.75 - 0.875) : K) = 118.875 := by norm_num
  rw [r2n] at r2
  rw [if_neg (by norm_num), if_neg (by norm_num [goalsRemaining])] at s2
  -- frame 3: forward
  obtain ⟨p3, g3, r3, s3⟩ := frame_step hm true false false false false false 0.6875
    _ _ _ _ (by decide) s2 p2 g2 r2 ⟨-0.56875, 0.175, -0.446875⟩
    [⟨⟨-0.55, 0.12, -0.45⟩, true⟩, ⟨⟨0.58, 0.18, 0.32⟩, false⟩, ⟨⟨0.1, 0.14, -0.05⟩, true⟩]
    (by rw [clampPosition_eq]
        norm_num [axisMoved, clampf, PLAYER_RADIUS, PLAYER_SPEED, PLAYER_ASCEND_SPEED])
    (by norm_num [collectOneSq, GOAL_RADIUS])
  have r3n : (max 0 (118.875 - 0.6875) : K) = 118.1875 := by norm_num
  rw [r3n] at r3
  rw [if_neg (by norm_num), if_neg (by norm_num [goalsRemaining])] at s3
  -- frame 4: right
  obtain ⟨p4, g4, r4, s4⟩ := frame_step hm false false false true false false 1.75
    _ _ _ _ (by decide) s3 p3 g3 r3 ⟨0.56875, 0.175, -0.446875⟩
    [⟨⟨-0.55, 0.12, -0.45⟩, true⟩, ⟨⟨0.58, 0.18, 0.32⟩, false⟩, ⟨⟨0.1, 0.14, -0.05⟩, true⟩]
    (by rw [clampPosition_eq]
        norm_num [axisMoved, clampf, PLAYER_RADIUS, PLAYER_SPEED, PLAYER_ASCEND_SPEED])
    (by norm_num [collectOneSq, GOAL_RADIUS])
  have r4n : (max 0 (118.1875 - 1.75) : K) = 116.4375 := by norm_num
  rw [r4n] at r4
  rw [if_neg (by norm_num), if_neg (by norm_num [goalsRemaining])] at s4
  -- frame 5: wait
  obtain ⟨p5, g5, r5, s5⟩ := frame_step hm false false false false false false 115.25
    _ _ _ _ (by decide) s4 p4 g4 r4 ⟨0.56875, 0.175, -0.446875⟩
    [⟨⟨-0.55, 0.12, -0.45⟩, true⟩, ⟨⟨0.58, 0.18, 0.32⟩, false⟩, ⟨⟨0.1, 0.14, -0.05⟩, true⟩]
    (by rw [clampPosition_eq]
        norm_num [axisMoved, clampf, PLAYER_RADIUS, PLAYER_SPEED, PLAYER_ASCEND_SPEED])
    (by norm_num [collectOneSq, GOAL_RADIUS])
  have r5n : (max 0 (116.4375 - 115.25) : K) = 1.1875 := by norm_num
  rw [r5n] at r5
  rw [if_neg (by norm_num), if_neg (by norm_num [goalsRemaining])] at s5
  -- frame 6: backward, and the clock runs out
  obtain ⟨p6, g6, r6, s6⟩ := frame_step hm false true false false false false 1.1875
    _ _ _ _ (by decide) s5 p5 g5 r5 ⟨0.56875, 0.175, 0.325⟩
    [⟨⟨-0.55, 0.12, -0.45⟩, true⟩, ⟨⟨0.58, 0.18, 0.32⟩, true⟩, ⟨⟨0.1, 0.14, -0.05⟩, true⟩]
    (by rw [clampPosition_eq]
        norm_num [axisMoved, clampf, PLAYER_RADIUS, PLAYER_SPEED, PLAYER_ASCEND_SPEED])
    (by norm_num [collectOneSq, GOAL_RADIUS])
  have r6n : (max 0 (1.1875 - 1.1875) : K) = 0 := by norm_num
  rw [r6n] at r6
  rw [if_pos (by norm_num), if_neg (by norm_num [goalsRemaining])] at s6
  exact ⟨s6, g6, p6, r6⟩

theorem lostWithAllGoals_reachable (m : MathLib K) :
    Reachable m (fun dt => 0 ≤ dt) (lostWithAllGoals m) := by
  unfold lostWithAllGoals
  refine Reachable.frame ?_ _ _ _ _ _ _ _ (by norm_num)
  refine Reachable.frame ?_ _ _ _ _ _ _ _ (by norm_num)
  refine Reachable.frame ?_ _ _ _ _ _ _ _ (by norm_num)
  refine Reachable.frame ?_ _ _ _ _ _ _ _ (by norm_num)
  refine Reachable.frame ?_ _ _ _ _ _ _ _ (by norm_num)
  refine Reachable.frame ?_ _ _ _ _ _ _ _ (by norm_num)
  exact Reachable.reset 0 initialGame

theorem ExactSqrt.sqrt_pos {m : MathLib K} (hm : ExactSqrt m) (x : K) (hx : 0 < x) :
    0 < m.sqrtf x := by
  have h := hm.sqrt_mul_self x (le_of_lt hx)
  have h0 := hm.sqrt_nonneg x
  rcases h0.lt_or_eq with hlt | heq
  · exact hlt
  · rw [← heq, mul_zero] at h
    exact absurd h (ne_of_lt hx)

theorem Vector3f.normSq_pos (v : Vector3f K) (hv : v ≠ Vector3f.zero) :
    0 < v.x * v.x + v.y * v.y + v.z * v.z := by
  obtain ⟨x, y, z⟩ := v
  by_contra hn
  have hx := mul_self_nonneg x
  have hy := mul_self_nonneg y
  have hz := mul_self_nonneg z
  have hx0 : x * x = 0 := by linarith
  have hy0 : y * y = 0 := by linarith
  have hz0 : z * z = 0 := by linarith
  apply hv
  simp only [Vector3f.zero, Vector3f.mk.injEq]
  exact ⟨mul_self_eq_zero.mp hx0, mul_self_eq_zero.mp hy0, mul_self_eq_zero.mp hz0⟩

theorem Vector3f.length_pos {m : MathLib K} (hm : ExactSqrt m) (v : Vector3f K)
    (hv : v ≠ Vector3f.zero) : 0 < v.length m :=
  hm.sqrt_pos _ (v.normSq_pos hv)

theorem Vector3f.unit_normSq {m : MathLib K} (hm : ExactSqrt m) (v : Vector3f K)
    (hv : v ≠ Vector3f.zero) :
    (v.unit m).x * (v.unit m).x + (v.unit m).y * (v.unit m).y
      + (v.unit m).z * (v.unit m).z = 1 := by
  have hpos := v.length_pos hm hv
  have hsq : v.length m * v.length m = v.x * v.x + v.y * v.y + v.z * v.z :=
    hm.sqrt_mul_self _ (le_of_lt (v.normSq_pos hv))
  have hne : v.length m ≠ 0 := ne_of_gt hpos
  simp only [Vector3f.unit, if_neg hne, Vector3f.div]
  field_simp
  linarith [hsq]

theorem Vector3f.unit_length {m : MathLib K} (hm : ExactSqrt m) (v : Vector3f K)
    (hv : v ≠ Vector3f.zero) : (v.unit m).length m = 1 := by
  have h := v.unit_normSq hm hv
  unfold Vector3f.length
  rw [h]
  exact hm.sqrt_one

theorem KeyboardUp_remainingTime (key : Char) (g : Game K) :
    (KeyboardUp key g).remainingTime = g.remainingTime := by
  unfold KeyboardUp
  split <;> rfl

theorem toggleAnimation_remainingTime (index : Int) (g : Game K) :
    (toggleAnimation index g).remainingTime = g.remainingTime := by
  unfold toggleAnimation
  split_ifs <;> rfl

theorem toggleAnimation_in_range (index : Int) (g : Game K) (h0 : 0 ≤ index) (h5 : index < 5) :
    toggleAnimation index g =
      { g with
        objectControllers := fun j =>
          if (j : Int) = index then
            { g.objectControllers j with active := !(g.objectControllers j).active }
          else g.objectControllers j } := by
  unfold toggleAnimation
  rw [dif_neg (by omega)]
  dsimp only
  congr 1
  funext j
  have hj : (j = (⟨index.toNat, by omega⟩ : Fin 5)) ↔ ((j : Int) = index) := by
    rw [Fin.ext_iff]
    dsimp only
    omega
  by_cases hji : (j : Int) = index
  · rw [if_pos (hj.mpr hji), if_pos hji]
  · rw [if_neg (fun h => hji (hj.mp h)), if_neg hji]

theorem scenarioA_succ (m : MathLib K) (k : Nat) :
    scenarioA m (k + 1) = updateGame m 0.1 (scenarioA m k) := by
  simp only [scenarioA, steps, List.replicate_succ', List.foldl_append, List.foldl_cons,
    List.foldl_nil]

theorem updateGame_intent (m : MathLib K) (dt : K) (g : Game K) :
    (updateGame m dt g).moveForward = g.moveForward ∧
    (updateGame m dt g).moveBackward = g.moveBackward ∧
    (updateGame m dt g).moveLeft = g.moveLeft ∧
    (updateGame m dt g).moveRight = g.moveRight ∧
    (updateGame m dt g).moveUp = g.moveUp ∧
    (updateGame m dt g).moveDown = g.moveDown := by
  by_cases hp : g.gameState = STATE_PLAYING
  · rw [updateGame_playing_eq m dt g hp]
    exact ⟨rfl, rfl, rfl, rfl, rfl, rfl⟩
  · rw [updateGame_of_not_playing m dt g hp]
    exact ⟨rfl, rfl, rfl, rfl, rfl, rfl⟩

theorem scenarioA_intent (m : MathLib K) (k : Nat) :
    (scenarioA m k).moveForward = true ∧ (scenarioA m k).moveBackward = false ∧
    (scenarioA m k).moveLeft = false ∧ (scenarioA m k).moveRight = false ∧
    (scenarioA m k).moveUp = false ∧ (scenarioA m k).moveDown = false := by
  induction k with
  | zero => exact ⟨rfl, rfl, rfl, rfl, rfl, rfl⟩
  | succ k ih =>
    obtain ⟨h1, h2, h3, h4, h5, h6⟩ := updateGame_intent m 0.1 (scenarioA m k)
    rw [scenarioA_succ, h1, h2, h3, h4, h5, h6]
    exact ih

theorem collectOneSq_far (pos : Vector3f K) (goal : Goal K) (hc : goal.collected = false)
    (hfar : GOAL_RADIUS * GOAL_RADIUS ≤
      (pos.x - goal.position.x) * (pos.x - goal.position.x)
        + (pos.y - goal.position.y) * (pos.y - goal.position.y)) :
    collectOneSq pos goal = goal := by
  obtain ⟨gp, gc⟩ := goal
  have hz := mul_self_nonneg (pos.z - gp.z)
  have hn : ¬ ((pos.x - gp.x) * (pos.x - gp.x) + (pos.y - gp.y) * (pos.y - gp.y)
      + (pos.z - gp.z) * (pos.z - gp.z) < GOAL_RADIUS * GOAL_RADIUS) := by
    simp only at hfar
    exact not_lt.mpr (by linarith)
  simp only at hc
  simp [collectOneSq, hc, hn]

theorem initGoals_far (z : K) :
    (initGoals : List (Goal K)).map (collectOneSq ⟨0, 0.05, z⟩) = initGoals := by
  simp only [initGoals, List.map_cons, List.map_nil]
  rw [collectOneSq_far _ _ rfl (by norm_num [GOAL_RADIUS]),
    collectOneSq_far _ _ rfl (by norm_num [GOAL_RADIUS]),
    collectOneSq_far _ _ rfl (by norm_num [GOAL_RADIUS])]

theorem scenarioA_eval {m : MathLib K} (hm : ExactSqrt m) (k : Nat) (hk : k ≤ 10) :
    (scenarioA m k).gameState = STATE_PLAYING ∧
    (scenarioA m k).player.position = ⟨0, 0.05, -0.065 * (k : K)⟩ ∧
    (scenarioA m k).goals = initGoals ∧
    (scenarioA m k).remainingTime = 120 - 0.1 * (k : K) := by
  induction k with
  | zero =>
    refine ⟨rfl, ?_, rfl, ?_⟩
    · simp [scenarioA, steps, Keyboard, resetGame, resetPlayer, PLAYER_RADIUS, float_zero]
    · simp [scenarioA, steps, Keyboard, resetGame]
      norm_num
  | succ k ih =>
    obtain ⟨hs, hp, hg, hr⟩ := ih (by omega)
    obtain ⟨h1, h2, h3, h4, h5, h6⟩ := scenarioA_intent m k
    have hkK : (k : K) + 1 ≤ 10 := by exact_mod_cast hk
    have hk0 : (0 : K) ≤ (k : K) := Nat.cast_nonneg k
    have hset : frame m true false false false false false 0.1 (scenarioA m k) =
        updateGame m 0.1 (scenarioA m k) := by
      have e : setIntent (scenarioA m k).moveForward (scenarioA m k).moveBackward
          (scenarioA m k).moveLeft (scenarioA m k).moveRight (scenarioA m k).moveUp
          (scenarioA m k).moveDown (scenarioA m k) = scenarioA m k := rfl
      rw [h1, h2, h3, h4, h5, h6] at e
      rw [frame, e]
    have hmoved : axisMoved (0.1 : K) true false false false false false
        ⟨0, 0.05, -0.065 * (k : K)⟩ = ⟨0, 0.05, -0.065 * ((k + 1 : ℕ) : K)⟩ := by
      simp only [axisMoved, PLAYER_SPEED, Vector3f.mk.injEq]
      push_cast
      refine ⟨by norm_num, by norm_num, by norm_num; ring⟩
    have hin : inBounds (⟨0, 0.05, -0.065 * ((k + 1 : ℕ) : K)⟩ : Vector3f K) := by
      simp only [inBounds]
      push_cast
      refine ⟨⟨by norm_num, by norm_num⟩, ⟨?_, ?_⟩, ⟨by norm_num, by norm_num⟩⟩
      · linarith
      · linarith
    obtain ⟨p1, g1, r1, s1⟩ := frame_step hm true false false false false false (0.1 : K)
      (scenarioA m k) _ _ _ (by decide) hs hp hg hr _ _
      (by rw [hmoved, clampPosition_of_inBounds _ hin]) (initGoals_far _)
    rw [hset, ← scenarioA_succ] at p1 g1 r1 s1
    have hpos : (0 : K) < 120 - 0.1 * (k : K) - 0.1 := by linarith
    refine ⟨?_, p1, g1, ?_⟩
    · rw [s1, if_neg (not_le.mpr hpos), if_neg (by simp [initGoals, goalsRemaining])]
    · rw [r1, max_eq_right (le_of_lt hpos)]
      push_cast
      ring

theorem ExactSqrt.sqrt_mul_self_eq {m : MathLib K} (hm : ExactSqrt m) (c : K) (hc : 0 ≤ c) :
    m.sqrtf (c * c) = c := by
  have h := hm.sqrt_mul_self (c * c) (mul_self_nonneg c)
  have h0 := hm.sqrt_nonneg (c * c)
  exact (mul_self_inj h0 hc).mp h

theorem direction_y (g : Game K) : (direction g).y = 0 := by
  unfold direction
  dsimp only
  split_ifs <;> rfl

theorem movedPosition_planar (m : MathLib K) (dt : K) (g : Game K)
    (hlen : 0 < (direction g).length m) :
    (movedPosition m dt g).x =
      g.player.position.x + ((direction g).unit m).x * (PLAYER_SPEED * dt) ∧
    (movedPosition m dt g).z =
      g.player.position.z + ((direction g).unit m).z * (PLAYER_SPEED * dt) := by
  have hl : (direction g).length m > 0.0 := by rw [float_zero]; exact hlen
  simp only [movedPosition, if_pos hl, Vector3f.add, Vector3f.mul]
  constructor <;> split_ifs <;> rfl

theorem Keyboard_cases_sound (key : Char) (now : Int) (g : Game K) :
    Keyboard key now g = resetGame now g ∨
      ((Keyboard key now g).loseSoundPlayed = g.loseSoundPlayed ∧
        (Keyboard key now g).remainingTime = g.remainingTime) := by
  unfold Keyboard
  split <;> first | exact Or.inl rfl | exact Or.inr ⟨rfl, rfl⟩

theorem KeyboardUp_loseSoundPlayed (key : Char) (g : Game K) :
    (KeyboardUp key g).loseSoundPlayed = g.loseSoundPlayed := by
  unfold KeyboardUp
  split <;> rfl

theorem toggleAnimation_loseSoundPlayed (index : Int) (g : Game K) :
    (toggleAnimation index g).loseSoundPlayed = g.loseSoundPlayed := by
  unfold toggleAnimation
  split_ifs <;> rfl

/-- In a session advanced with `dt ≥ 0` the buzzer latch is only set once the
remaining time is at most 10. -/
theorem buzzer_invariant (m : MathLib K) (g : Game K)
    (h : Reachable m (fun dt => 0 ≤ dt) g) :
    g.loseSoundPlayed = true → g.remainingTime ≤ 10 := by
  induction h with
  | reset now g0 => intro hl; exact absurd hl (by simp [resetGame])
  | @update g dt hdt _ ih =>
    by_cases hp : g.gameState = STATE_PLAYING
    · rw [updateGame_playing_eq m dt g hp]
      dsimp only
      intro hl
      by_cases hw : g.remainingTime - dt ≤ 10.0 ∧ g.remainingTime - dt > 9.9 ∧
          !g.loseSoundPlayed
      · have h10 : g.remainingTime - dt ≤ 10 := by
          have := hw.1
          norm_num at this
          linarith
        exact max_le (by norm_num) h10
      · rw [if_neg hw] at hl
        have := ih hl
        exact max_le (by norm_num) (by linarith)
    · rw [updateGame_of_not_playing m dt g hp]; exact ih
  | @keyDown g key now _ ih =>
    rcases Keyboard_cases_sound key now g with he | ⟨hl, hr⟩
    · rw [he]; intro hl; exact absurd hl (by simp [resetGame])
    · rw [hl, hr]; exact ih
  | keyUp key _ ih => rw [KeyboardUp_loseSoundPlayed, KeyboardUp_remainingTime]; exact ih
  | toggle index _ ih =>
    rw [toggleAnimation_loseSoundPlayed, toggleAnimation_remainingTime]; exact ih

theorem realMath_sqrt_one : realMath.sqrtf 1 = 1 := Real.sqrt_one

theorem realMath_atan2f_zero_one : realMath.atan2f 0 1 = 0 := by
  have e : (⟨1, 0⟩ : ℂ) = 1 := Complex.ext rfl rfl
  simp only [realMath, e, Complex.arg_one]

theorem movedYaw_forward (m : MathLib K) (hs : m.sqrtf 1 = 1) (g : Game K)
    (hf : g.moveForward = true) (hb : g.moveBackward = false)
    (hl : g.moveLeft = false) (hr : g.moveRight = false) :
    movedYaw m g = m.atan2f 0 1 * 180.0 / 3.14159265 := by
  simp [movedYaw, direction, Vector3f.length, Vector3f.unit, Vector3f.div, Vector3f.zero,
    hf, hb, hl, hr, float_zero, float_one, hs]

theorem scenarioA_moved {m : MathLib K} (hm : ExactSqrt m) (k : Nat) :
    movedPosition m 0.1 (scenarioA m k) =
      ⟨(scenarioA m k).player.position.x, (scenarioA m k).player.position.y,
        (scenarioA m k).player.position.z - 0.065⟩ := by
  obtain ⟨h1, h2, h3, h4, h5, h6⟩ := scenarioA_intent m k
  rw [movedPosition_axis hm _ _ (by simp [h1, h2, h3, h4]), h1, h2, h3, h4, h5, h6]
  simp only [axisMoved, PLAYER_SPEED, Vector3f.mk.injEq]
  refine ⟨by norm_num, by norm_num, by norm_num; ring⟩

theorem unit_y_of_y_zero (m : MathLib K) (v : Vector3f K) (hy : v.y = 0) :
    (v.unit m).y = 0 := by
  unfold Vector3f.unit
  dsimp only
  split_ifs
  · rfl
  · simp [Vector3f.div, hy]

theorem movedPosition_y (m : MathLib K) (dt : K) (g : Game K) :
    (movedPosition m dt g).y =
      g.player.position.y
        + PLAYER_ASCEND_SPEED * dt
          * ((if g.moveUp then 1 else 0) - (if g.moveDown then 1 else 0)) := by
  have hu := unit_y_of_y_zero m (direction g) (direction_y g)
  simp only [movedPosition]
  by_cases hl : (direction g).length m > 0.0 <;> cases g.moveUp <;> cases g.moveDown <;>
    simp [hl, Vector3f.add, Vector3f.mul, hu] <;> ring

theorem clampPosition_y (pos : Vector3f K) :
    (clampPosition pos).y = clampf pos.y 0.05 0.85 := by
  rw [clampPosition_eq]

theorem Keyboard_cases_player (key : Char) (now : Int) (g : Game K) :
    Keyboard key now g = resetGame now g ∨ (Keyboard key now g).player = g.player := by
  unfold Keyboard
  split <;> first | exact Or.inl rfl | exact Or.inr rfl

theorem resetGame_heightDerived (now : Int) (g : Game K) :
    heightDerived (resetGame now g).player := by
  simp [heightDerived, resetGame, resetPlayer, float_zero]
  norm_num

theorem updateGame_heightDerived (m : MathLib K) (dt : K) (g : Game K)
    (h : g.gameState = STATE_PLAYING) : heightDerived (updateGame m dt g).player := by
  rw [updateGame_playing_eq m dt g h]
  simp only [heightDerived]
  constructor
  · simp
  · by_cases hc : |(clampPosition (movedPosition m dt g)).y - PLAYER_RADIUS| < 0.002
    · simp [hc, float_zero]
    · simp [hc]
      norm_num

theorem direction_cancel (g : Game K) (hfb : g.moveForward = g.moveBackward)
    (hlr : g.moveLeft = g.moveRight) : direction g = Vector3f.zero := by
  unfold direction
  rw [hfb, hlr]
  cases g.moveBackward <;> cases g.moveRight <;> simp [Vector3f.zero, float_one]

theorem updateGame_loseSoundPlayed (m : MathLib K) (dt : K) (g : Game K) :
    (updateGame m dt g).loseSoundPlayed = (buzzerFires dt g || g.loseSoundPlayed) := by
  by_cases hp : g.gameState = STATE_PLAYING
  · rw [updateGame_playing_eq m dt g hp]
    dsimp only
    by_cases hw : g.remainingTime - dt ≤ 10.0 ∧ g.remainingTime - dt > 9.9 ∧ !g.loseSoundPlayed
    · simp [buzzerFires, hp, hw]
    · simp [buzzerFires, hp, hw]
  · rw [updateGame_of_not_playing m dt g hp]
    simp [buzzerFires, hp]

theorem buzzerFires_of_latched (dt : K) (g : Game K) (h : g.loseSoundPlayed = true) :
    buzzerFires dt g = false := by
  simp [buzzerFires, h]

theorem Keyboard_loseSoundPlayed (key : Char) (now : Int) (g : Game K)
    (h1 : key ≠ 'p') (h2 : key ≠ 'P') :
    (Keyboard key now g).loseSoundPlayed = g.loseSoundPlayed := by
  unfold Keyboard
  split <;> first | rfl | exact absurd rfl h1 | exact absurd rfl h2

theorem applyInput_latched (m : MathLib K) (i : Input K) (g : Game K)
    (hi : isRestart i = false) (h : g.loseSoundPlayed = true) :
    (applyInput m i g).loseSoundPlayed = true := by
  cases i with
  | tick dt => simp [applyInput, updateGame_loseSoundPlayed, h]
  | press key now =>
    simp only [isRestart, Bool.or_eq_false_iff, decide_eq_false_iff_not] at hi
    simp only [applyInput]
    rw [Keyboard_loseSoundPlayed key now g hi.1 hi.2, h]
  | release key => simp only [applyInput]; rw [KeyboardUp_loseSoundPlayed, h]
  | toggle index => simp only [applyInput]; rw [toggleAnimation_loseSoundPlayed, h]

theorem buzzerCount_latched (m : MathLib K) (inputs : List (Input K)) :
    ∀ g : Game K, (∀ i ∈ inputs, isRestart i = false) → g.loseSoundPlayed = true →
      buzzerCount m inputs g = 0 := by
  induction inputs with
  | nil => intro g _ _; rfl
  | cons i rest ih =>
    intro g hr h
    have hi := hr i (List.mem_cons_self i rest)
    have hrest : ∀ j ∈ rest, isRestart j = false := fun j hj => hr j (List.mem_cons_of_mem i hj)
    have hnext := applyInput_latched m i g hi h
    cases i with
    | tick dt =>
      simp only [buzzerCount, buzzerFires_of_latched dt g h, Bool.false_eq_true, if_false,
        Nat.zero_add]
      exact ih _ hrest hnext
    | press key now => exact ih _ hrest hnext
    | release key => exact ih _ hrest hnext
    | toggle index => exact ih _ hrest hnext

theorem playing_invariant (m : MathLib K) (P : K → Prop) (g : Game K)
    (h : Reachable m P g) :
    (g.gameState = STATE_PLAYING → 0 < g.remainingTime ∧ goalsRemaining g.goals ≠ 0) ∧
    (g.gameState = STATE_LOSE → g.remainingTime = 0) := by
  have hreset : ∀ (now : Int) (g0 : Game K),
      ((resetGame now g0).gameState = STATE_PLAYING →
        0 < (resetGame now g0).remainingTime ∧ goalsRemaining (resetGame now g0).goals ≠ 0) ∧
      ((resetGame now g0).gameState = STATE_LOSE → (resetGame now g0).remainingTime = 0) := by
    intro now g0
    refine ⟨fun _ => ⟨?_, ?_⟩, fun hl => ?_⟩
    · simp only [resetGame]; norm_num
    · rw [resetGame_goalsRemaining]; decide
    · exact absurd hl (by simp [resetGame])
  induction h with
  | reset now g0 => exact hreset now g0
  | @update g dt _ _ ih =>
    by_cases hp : g.gameState = STATE_PLAYING
    · rw [updateGame_playing_eq m dt g hp]
      dsimp only
      by_cases ht : g.remainingTime - dt ≤ 0
      · have hts : timerState dt g ≠ STATE_PLAYING := by
          unfold timerState
          rw [if_pos ht]
          split_ifs <;> decide
        rw [max_eq_left ht, if_neg (fun hc => hts hc.2)]
        exact ⟨fun hq => absurd hq hts, fun _ => rfl⟩
      · have hts : timerState dt g = STATE_PLAYING := by
          unfold timerState
          rw [if_neg ht]
        have hpos : 0 < g.remainingTime - dt := not_le.mp ht
        simp only [hts, and_true, max_eq_right (le_of_lt hpos)]
        by_cases h0 : goalsRemaining
            (collectGoals m (clampPosition (movedPosition m dt g)) g.goals) = 0
        · simp [h0]
        · simp [h0, hpos]
    · rw [updateGame_of_not_playing m dt g hp]; exact ih
  | @keyDown g key now _ ih =>
    rcases Keyboard_cases key now g with he | ⟨hg, hs, hr⟩
    · rw [he]; exact hreset now g
    · rw [hg, hs, hr]; exact ih
  | keyUp key _ ih =>
    rw [KeyboardUp_goals, KeyboardUp_gameState, KeyboardUp_remainingTime]; exact ih
  | toggle index _ ih =>
    rw [toggleAnimation_goals, toggleAnimation_gameState, toggleAnimation_remainingTime]
    exact ih

theorem Vector3f.add_sub_self_left (a v : Vector3f K) : (a.add v).sub a = v := by
  simp only [Vector3f.add, Vector3f.sub, add_sub_cancel_left]

theorem Vector3f.sub_ne_zero (a b : Vector3f K) (h : b ≠ a) : a.sub b ≠ Vector3f.zero := by
  intro hz
  apply h
  obtain ⟨ax, ay, az⟩ := a
  obtain ⟨bx, bY, bz⟩ := b
  simp only [Vector3f.sub, Vector3f.zero, Vector3f.mk.injEq] at hz
  simp only [Vector3f.mk.injEq]
  exact ⟨(sub_eq_zero.mp hz.1).symm, (sub_eq_zero.mp hz.2.1).symm, (sub_eq_zero.mp hz.2.2).symm⟩

theorem Vector3f.cross_normSq (u v : Vector3f K) :
    (u.cross v).x * (u.cross v).x + (u.cross v).y * (u.cross v).y
        + (u.cross v).z * (u.cross v).z =
      (u.x * u.x + u.y * u.y + u.z * u.z) * (v.x * v.x + v.y * v.y + v.z * v.z)
        - u.dot v * u.dot v := by
  simp only [Vector3f.cross, Vector3f.dot]
  ring

theorem Vector3f.cross_dot_right (u v : Vector3f K) : (u.cross v).dot v = 0 := by
  simp only [Vector3f.cross, Vector3f.dot]
  ring

theorem Vector3f.dot_unit (m : MathLib K) (u v : Vector3f K)
    (h : u.dot v = 0) : u.dot (v.unit m) = 0 := by
  unfold Vector3f.unit
  dsimp only
  split_ifs with hl
  · simp [Vector3f.dot, Vector3f.zero]
  · simp only [Vector3f.dot, Vector3f.div] at h ⊢
    field_simp
    linarith

theorem Vector3f.unit_dot (m : MathLib K) (u v : Vector3f K)
    (h : u.dot v = 0) : (u.unit m).dot v = 0 := by
  unfold Vector3f.unit
  dsimp only
  split_ifs with hl
  · simp [Vector3f.dot, Vector3f.zero]
  · simp only [Vector3f.dot, Vector3f.div] at h ⊢
    field_simp
    linarith

theorem ExactSqrt.normSq_of_length_one {m : MathLib K} (hm : ExactSqrt m) (v : Vector3f K)
    (h : v.length m = 1) : v.x * v.x + v.y * v.y + v.z * v.z = 1 := by
  have hq : 0 ≤ v.x * v.x + v.y * v.y + v.z * v.z :=
    add_nonneg (add_nonneg (mul_self_nonneg _) (mul_self_nonneg _)) (mul_self_nonneg _)
  have := hm.sqrt_mul_self _ hq
  unfold Vector3f.length at h
  rw [h, mul_one] at this
  exact this.symm

/-- After `rotateY` the vector from `eye` to `center` has squared norm 1. -/
theorem rotateY_normSq {m : MathLib K} (hm : ExactSqrt m) (ht : ExactTrig m) (c : Camera K)
    (a : K) (hne : c.eye ≠ c.center) (hup : c.up.length m = 1)
    (hperp : c.up.dot (c.center.sub c.eye) = 0) :
    ((c.rotateY m a).center.sub (c.rotateY m a).eye).x
          * ((c.rotateY m a).center.sub (c.rotateY m a).eye).x
        + ((c.rotateY m a).center.sub (c.rotateY m a).eye).y
          * ((c.rotateY m a).center.sub (c.rotateY m a).eye).y
        + ((c.rotateY m a).center.sub (c.rotateY m a).eye).z
          * ((c.rotateY m a).center.sub (c.rotateY m a).eye).z = 1 := by
  have hd : c.center.sub c.eye ≠ Vector3f.zero := Vector3f.sub_ne_zero _ _ hne
  have hv := (c.center.sub c.eye).unit_normSq hm hd
  have hu := hm.normSq_of_length_one c.up hup
  have huv : c.up.dot ((c.center.sub c.eye).unit m) = 0 := Vector3f.dot_unit m _ _ hperp
  have hw := Vector3f.cross_normSq c.up ((c.center.sub c.eye).unit m)
  rw [hu, hv, huv] at hw
  norm_num at hw
  have hwne : c.up.cross ((c.center.sub c.eye).unit m) ≠ Vector3f.zero := by
    intro hz
    rw [hz] at hw
    simp [Vector3f.zero] at hw
  have hr := (c.up.cross ((c.center.sub c.eye).unit m)).unit_normSq hm hwne
  have hrv : ((c.up.cross ((c.center.sub c.eye).unit m)).unit m).dot
      ((c.center.sub c.eye).unit m) = 0 :=
    Vector3f.unit_dot m _ _ (Vector3f.cross_dot_right _ _)
  have hcs := ht (DEG2RAD a)
  have e : (c.rotateY m a).center.sub (c.rotateY m a).eye =
      (((c.center.sub c.eye).unit m).mul (m.cosf (DEG2RAD a))).add
        (((c.up.cross ((c.center.sub c.eye).unit m)).unit m).mul (m.sinf (DEG2RAD a))) :=
    Vector3f.add_sub_self_left _ _
  rw [e]
  simp only [Vector3f.add, Vector3f.mul]
  simp only [Vector3f.dot] at hrv
  generalize (c.up.cross ((c.center.sub c.eye).unit m)).unit m = r at hr hrv
  generalize (c.center.sub c.eye).unit m = v at hv hrv
  generalize m.cosf (DEG2RAD a) = cs at hcs
  generalize m.sinf (DEG2RAD a) = sn at hcs
  linear_combination (cs * cs) * hv + (sn * sn) * hr + (2 * cs * sn) * hrv + hcs

theorem realMath_trig : ExactTrig realMath := by
  intro x
  have h := Real.cos_sq_add_sin_sq x
  simp only [realMath]
  nlinarith [h]

theorem P59.clampPosition59_eq (pos : Vector3f K) :
    P59.clampPosition pos =
      ⟨clampf pos.x (-0.95) 0.95, clampf pos.y 0.05 0.85, clampf pos.z (-0.95) 0.95⟩ := by
  have h1 : (-SCENE_HALF + PLAYER_RADIUS : K) = -0.95 := by norm_num [SCENE_HALF, PLAYER_RADIUS]
  have h2 : (SCENE_HALF - PLAYER_RADIUS : K) = 0.95 := by norm_num [SCENE_HALF, PLAYER_RADIUS]
  simp only [P59.clampPosition]
  rw [h1, h2]
  rfl

theorem clampf_narrow (v lo hi lo2 hi2 : K) (h1 : lo2 < lo) (h2 : hi < hi2)
    (hlo : lo ≤ clampf v lo2 hi2) (hhi : clampf v lo2 hi2 ≤ hi) :
    clampf v lo hi = clampf v lo2 hi2 := by
  unfold clampf at hlo hhi ⊢
  split_ifs at hlo hhi ⊢ <;> first | rfl | (exfalso; linarith)

/-- One `P59.updateGame` call on a session that is still being played, field
by field. -/
theorem P59.updateGame59_playing_eq (m : MathLib K) (dt : K) (g : Game K)
    (h : g.gameState = STATE_PLAYING) :
    P59.updateGame m dt g =
      { player :=
          { position := P59.clampPosition (movedPosition m dt g)
            velocity := g.player.velocity
            yaw := movedYaw m g
            tilt :=
              if (!decide (|(P59.clampPosition (movedPosition m dt g)).y - PLAYER_RADIUS| < 0.002))
              then -20.0 else 0.0
            airborne :=
              !decide (|(P59.clampPosition (movedPosition m dt g)).y - PLAYER_RADIUS| < 0.002) }
        goals := collectGoals m (P59.clampPosition (movedPosition m dt g)) g.goals
        objectControllers := (updateAnimations dt g).objectControllers
        loseSoundPlayed := g.loseSoundPlayed
        winSoundPlayed := g.winSoundPlayed
        gameState :=
          if goalsRemaining (collectGoals m (P59.clampPosition (movedPosition m dt g)) g.goals) = 0 ∧
              timerState dt g = STATE_PLAYING then STATE_WIN
          else timerState dt g
        moveForward := g.moveForward
        moveBackward := g.moveBackward
        moveLeft := g.moveLeft
        moveRight := g.moveRight
        moveUp := g.moveUp
        moveDown := g.moveDown
        goalRotation := g.goalRotation + dt * 50.0
        wallColorPhase := g.wallColorPhase + dt * 0.7
        remainingTime := max 0 (g.remainingTime - dt)
        lastTick := g.lastTick } := by
  have h0 : (0.0 : K) = 0 := by norm_num
  unfold P59.updateGame
  rw [if_neg (by simp [h])]
  dsimp only
  by_cases ht : g.remainingTime - dt ≤ 0
  · simp only [if_pos (h0 ▸ ht)]
    simp [handleGoalCollection_eq, P59.handlePlayerMovement, updateAnimations, timerState, ht,
      movedPosition, movedYaw, direction, h0]
  · simp only [if_neg (h0 ▸ ht)]
    simp [handleGoalCollection_eq, P59.handlePlayerMovement, updateAnimations, timerState, ht,
      movedPosition, movedYaw, direction, h, le_of_lt (not_le.mp ht), h0]

theorem roundHalfEven_of_near (x : ℚ) (n : ℤ) (h1 : (n : ℚ) - 1 / 2 < x)
    (h2 : x < n + 1 / 2) : roundHalfEven x = n := by
  unfold roundHalfEven
  dsimp only
  by_cases hx : (n : ℚ) ≤ x
  · have hf : ⌊x⌋ = n := Int.floor_eq_iff.mpr ⟨hx, by linarith⟩
    rw [hf, if_pos (by linarith)]
  · have hf : ⌊x⌋ = n - 1 := Int.floor_eq_iff.mpr ⟨by push_cast; linarith, by push_cast; linarith⟩
    rw [hf, if_neg (by push_cast; linarith), if_pos (by push_cast; linarith)]
    ring

theorem roundF32_eq (k n : ℤ) (q : ℚ) (hk : -126 ≤ k) (h1 : (2 : ℚ) ^ k ≤ |q|)
    (h2 : |q| < (2 : ℚ) ^ (k + 1)) (hn1 : (n : ℚ) - 1 / 2 < q / 2 ^ (k - 23))
    (hn2 : q / 2 ^ (k - 23) < n + 1 / 2) : roundF32 q = n * 2 ^ (k - 23) := by
  have hpos : (0 : ℚ) < |q| := lt_of_lt_of_le (by positivity) h1
  have hq : q ≠ 0 := abs_pos.mp hpos
  have hlog : Int.log 2 |q| = k := by
    apply le_antisymm
    · have := (Int.lt_zpow_iff_log_lt (b := 2) (by norm_num) hpos (x := k + 1)).mp
        (by exact_mod_cast h2)
      omega
    · exact (Int.zpow_le_iff_le_log (b := 2) (by norm_num) hpos).mp (by exact_mod_cast h1)
  unfold roundF32
  rw [if_neg hq]
  dsimp only
  rw [hlog, max_eq_left hk, roundHalfEven_of_near _ n hn1 hn2]

theorem roundF32_zero : roundF32 0 = 0 := by
  unfold roundF32
  rw [if_pos rfl]

theorem roundF32_tenth : roundF32 0.1 = 13421773 / 134217728 := by
  rw [roundF32_eq (-4) 13421773 _ (by norm_num) (by norm_num [abs_of_pos])
    (by norm_num [abs_of_pos]) (by norm_num) (by norm_num)]
  norm_num

theorem remainingTimeF32_tenth (n : ℤ) (h1 : 8401995 ≤ n) (h2 : n < 16777216) :
    remainingTimeF32 (13421773 / 134217728) (n / 131072) = ((n - 13107 : ℤ) : ℚ) / 131072 := by
  have hn1 : (8401995 : ℚ) ≤ n := by exact_mod_cast h1
  have hn2 : (n : ℚ) < 16777216 := by exact_mod_cast h2
  have hq : (0 : ℚ) < n / 131072 - 13421773 / 134217728 := by linarith
  have hr : roundF32 ((n : ℚ) / 131072 - 13421773 / 134217728) = ((n - 13107 : ℤ) : ℚ) / 131072 := by
    rw [roundF32_eq 6 (n - 13107) _ (by norm_num)
      (by rw [abs_of_pos hq]; norm_num; linarith)
      (by rw [abs_of_pos hq]; norm_num; linarith)
      (by push_cast; norm_num; linarith) (by push_cast; norm_num; linarith)]
    push_cast
    norm_num
    ring
  unfold remainingTimeF32
  dsimp only
  rw [hr, if_neg]
  push_cast
  rw [not_le]
  apply div_pos _ (by norm_num)
  linarith

/-- The remaining time after `j ≤ 10` binary32 decrements by `0.1f` from 120:
`13107` units of `2 ^ (-17)` are taken off each time, where `0.1` would be
`13107.2` units. -/
theorem remainingTimeF32_iterate (j : Nat) (hj : j ≤ 10) :
    (remainingTimeF32 (roundF32 0.1))^[j] 120 = ((15728640 - 13107 * (j : ℤ) : ℤ) : ℚ) / 131072 := by
  induction j with
  | zero => norm_num
  | succ j ih =>
    rw [Function.iterate_succ_apply', ih (by omega), roundF32_tenth,
      remainingTimeF32_tenth _ (by omega) (by omega)]
    push_cast
    ring

theorem roundF32_half : roundF32 0.5 = 1 / 2 := by
  rw [roundF32_eq (-1) 8388608 _ (by norm_num) (by norm_num [abs_of_pos])
    (by norm_num [abs_of_pos]) (by norm_num) (by norm_num)]
  norm_num

theorem roundF32_055 : roundF32 0.55 = 9227469 / 16777216 := by
  rw [roundF32_eq (-1) 9227469 _ (by norm_num) (by norm_num [abs_of_pos])
    (by norm_num [abs_of_pos]) (by norm_num) (by norm_num)]
  norm_num

theorem roundF32_005 : roundF32 0.05 = 13421773 / 268435456 := by
  rw [roundF32_eq (-5) 13421773 _ (by norm_num) (by norm_num [abs_of_pos])
    (by norm_num [abs_of_pos]) (by norm_num) (by norm_num)]
  norm_num

theorem roundF32_085 : roundF32 0.85 = 7130317 / 8388608 := by
  rw [roundF32_eq (-1) 14260634 _ (by norm_num) (by norm_num [abs_of_pos])
    (by norm_num [abs_of_pos]) (by norm_num) (by norm_num)]
  norm_num

theorem clampf_eq_max_min (v lo hi : K) (h : lo ≤ hi) :
    clampf v lo hi = max lo (min hi v) := by
  unfold clampf
  split_ifs with h1 h2
  · rw [max_eq_left (le_trans (min_le_right _ _) (le_of_lt h1))]
  · rw [min_eq_left (le_of_lt h2), max_eq_right h]
  · rw [min_eq_right (not_lt.mp h2), max_eq_right (not_lt.mp h1)]

/-! ## The claims -/

/-- C1 (frozen on terminal): in a session whose outcome is Won or Lost,
`updateGame dt` returns the state unchanged, for every `dt`, and so does any
sequence of `updateGame` calls. -/
theorem updateGame_frozen_on_terminal (m : MathLib K) (g : Game K)
    (h : g.gameState = STATE_WIN ∨ g.gameState = STATE_LOSE) :
    (∀ dt : K, updateGame m dt g = g) ∧ ∀ dts : List K, steps m dts g = g := by
  have hne : g.gameState ≠ STATE_PLAYING := by
    rcases h with h | h <;> rw [h] <;> decide
  refine ⟨fun dt => updateGame_of_not_playing m dt g hne, fun dts => ?_⟩
  induction dts with
  | nil => rfl
  | cons dt dts ih =>
    simp only [steps, List.foldl_cons] at ih ⊢
    rw [updateGame_of_not_playing m dt g hne]
    exact ih

/-- Witness for C1: a lost session with the three initial goals. -/
theorem updateGame_frozen_on_terminal_witness :
    (∀ dt : ℝ, updateGame realMath dt
        { (resetGame 0 initialGame : Game ℝ) with gameState := STATE_LOSE } =
        { (resetGame 0 initialGame : Game ℝ) with gameState := STATE_LOSE }) ∧
    ∀ dts : List ℝ, steps realMath dts
        { (resetGame 0 initialGame : Game ℝ) with gameState := STATE_LOSE } =
        { (resetGame 0 initialGame : Game ℝ) with gameState := STATE_LOSE } :=
  updateGame_frozen_on_terminal _ _ (Or.inr rfl)

/-- C2 (bounds invariant): in every state reachable from `resetGame` by
`updateGame dt` calls with `0 ≤ dt ≤ 1`, key presses and releases (arbitrary
intent flags) and toggles, the player's `x` and `z` lie in
`[-SCENE_HALF + PLAYER_RADIUS + 0.03, SCENE_HALF - PLAYER_RADIUS - 0.03]`,
which is `[-0.92, 0.92]`, and `y` lies in `[PLAYER_RADIUS, MAX_HEIGHT]`, which
is `[0.05, 0.85]`. -/
theorem bounds_invariant (m : MathLib K) (g : Game K)
    (h : Reachable m (fun dt => 0 ≤ dt ∧ dt ≤ 1) g) :
    ((-SCENE_HALF + PLAYER_RADIUS + 0.03 ≤ g.player.position.x ∧
        g.player.position.x ≤ SCENE_HALF - PLAYER_RADIUS - 0.03) ∧
      (-SCENE_HALF + PLAYER_RADIUS + 0.03 ≤ g.player.position.z ∧
        g.player.position.z ≤ SCENE_HALF - PLAYER_RADIUS - 0.03) ∧
      (PLAYER_RADIUS ≤ g.player.position.y ∧ g.player.position.y ≤ MAX_HEIGHT)) ∧
    inBounds g.player.position := by
  have hx : (-SCENE_HALF + PLAYER_RADIUS + 0.03 : K) = -0.92 := by
    norm_num [SCENE_HALF, PLAYER_RADIUS]
  have hx2 : (SCENE_HALF - PLAYER_RADIUS - 0.03 : K) = 0.92 := by
    norm_num [SCENE_HALF, PLAYER_RADIUS]
  have hy : (PLAYER_RADIUS : K) = 0.05 := rfl
  have hy2 : (MAX_HEIGHT : K) = 0.85 := rfl
  rw [hx, hx2, hy, hy2]
  suffices hb : inBounds g.player.position from ⟨hb, hb⟩
  induction h with
  | reset now g0 => exact resetGame_inBounds now g0
  | @update g dt _ _ ih =>
    by_cases hp : g.gameState = STATE_PLAYING
    · exact updateGame_inBounds m dt g hp
    · rw [updateGame_of_not_playing m dt g hp]; exact ih
  | keyDown key now _ ih => exact Keyboard_player_inBounds key now _ ih
  | keyUp key _ ih => rw [KeyboardUp_player]; exact ih
  | toggle index _ ih => rw [toggleAnimation_player]; exact ih

/-- Witness for C2: the session after `resetGame`, the forward key and one
half-second step. -/
theorem bounds_invariant_witness :
    ((-SCENE_HALF + PLAYER_RADIUS + 0.03 ≤
          (updateGame realMath 0.5 (Keyboard 'i' 0 (resetGame 0 initialGame))).player.position.x ∧
        (updateGame realMath 0.5 (Keyboard 'i' 0 (resetGame 0 initialGame))).player.position.x ≤
          SCENE_HALF - PLAYER_RADIUS - 0.03) ∧
      (-SCENE_HALF + PLAYER_RADIUS + 0.03 ≤
          (updateGame realMath 0.5 (Keyboard 'i' 0 (resetGame 0 initialGame))).player.position.z ∧
        (updateGame realMath 0.5 (Keyboard 'i' 0 (resetGame 0 initialGame))).player.position.z ≤
          SCENE_HALF - PLAYER_RADIUS - 0.03) ∧
      (PLAYER_RADIUS ≤
          (updateGame realMath 0.5 (Keyboard 'i' 0 (resetGame 0 initialGame))).player.position.y ∧
        (updateGame realMath 0.5 (Keyboard 'i' 0 (resetGame 0 initialGame))).player.position.y ≤
          MAX_HEIGHT)) ∧
    inBounds (updateGame realMath 0.5 (Keyboard 'i' 0 (resetGame 0 initialGame))).player.position :=
  bounds_invariant realMath _
    (Reachable.update 0.5 (by norm_num)
      (Reachable.keyDown 'i' 0 (Reachable.reset 0 initialGame)))

/-- C3, as stated, fails: in `lastGoalAtTimeout` the step of one second drives
`remainingTime` to 0 and its collection pass collects the last remaining goal,
and the outcome is Lost. -/
theorem win_precedence_counterexample :
    (lastGoalAtTimeout : Game ℝ).gameState = STATE_PLAYING ∧
    (lastGoalAtTimeout : Game ℝ).remainingTime - 1 ≤ 0 ∧
    goalsRemaining (lastGoalAtTimeout : Game ℝ).goals = 1 ∧
    goalsRemaining (updateGame realMath 1 lastGoalAtTimeout).goals = 0 ∧
    (updateGame realMath 1 lastGoalAtTimeout).gameState = STATE_LOSE ∧
    (updateGame realMath 1 lastGoalAtTimeout).gameState ≠ STATE_WIN := by
  have hp : (lastGoalAtTimeout : Game ℝ).gameState = STATE_PLAYING := rfl
  have hpos : movedPosition realMath 1 (lastGoalAtTimeout : Game ℝ) = ⟨0.1, 0.14, -0.05⟩ :=
    movedPosition_idle realMath realMath_sqrt_zero 1 _ rfl rfl rfl rfl rfl rfl
  have hb : inBounds (⟨0.1, 0.14, -0.05⟩ : Vector3f ℝ) := by
    simp only [inBounds]; norm_num
  have hg : collectGoals realMath (⟨0.1, 0.14, -0.05⟩ : Vector3f ℝ)
      (lastGoalAtTimeout : Game ℝ).goals =
      [⟨⟨-0.55, 0.12, -0.45⟩, true⟩, ⟨⟨0.58, 0.18, 0.32⟩, true⟩, ⟨⟨0.1, 0.14, -0.05⟩, true⟩] := by
    have h0 := length_sub_self realMath realMath_sqrt_zero (⟨0.1, 0.14, -0.05⟩ : Vector3f ℝ)
    simp only [lastGoalAtTimeout, collectGoals, h0, GOAL_RADIUS]
    norm_num
  have ht : timerState (1 : ℝ) lastGoalAtTimeout = STATE_LOSE := by
    simp [timerState, lastGoalAtTimeout, goalsRemaining]
  rw [updateGame_playing_eq realMath 1 _ hp, hpos, clampPosition_of_inBounds _ hb]
  simp only [hg, ht]
  refine ⟨rfl, ?_, ?_, ?_, ?_, ?_⟩
  · simp [lastGoalAtTimeout]
  · simp [lastGoalAtTimeout, goalsRemaining]
  · simp [goalsRemaining]
  · simp
  · simp

/-- C3 (amended): when `remainingTime - dt ≤ 0` in a Playing state with a goal
still uncollected at the start of the step, the outcome after `updateGame dt`
is Lost, also when the collection pass of that same call collects the last
remaining goal. -/
theorem timeout_precedes_collection (m : MathLib K) (g : Game K) (dt : K)
    (h : g.gameState = STATE_PLAYING) (ht : g.remainingTime - dt ≤ 0)
    (hg : goalsRemaining g.goals ≠ 0) :
    (updateGame m dt g).gameState = STATE_LOSE := by
  rw [updateGame_playing_eq m dt g h]
  simp [timerState, ht, hg]

/-- Witness for C3 (amended): the last goal is collected in the step that runs
the clock out, and the session is lost. -/
theorem timeout_precedes_collection_witness :
    (updateGame realMath 1 (lastGoalAtTimeout : Game ℝ)).gameState = STATE_LOSE :=
  timeout_precedes_collection realMath lastGoalAtTimeout 1 rfl
    (by simp [lastGoalAtTimeout]) (by simp [lastGoalAtTimeout, goalsRemaining])

/-- C4, as stated, fails: `lostWithAllGoals` is reachable from `resetGame` by
`updateGame` calls with `dt ≥ 0` and key events, every goal in it is
collected, and its outcome is Lost, not Won. -/
theorem won_iff_all_collected_counterexample :
    Reachable realMath (fun dt => 0 ≤ dt) (lostWithAllGoals realMath) ∧
    (∀ goal ∈ (lostWithAllGoals realMath).goals, goal.collected = true) ∧
    (lostWithAllGoals realMath).gameState = STATE_LOSE ∧
    ¬ ((lostWithAllGoals realMath).gameState = STATE_WIN ↔
      ∀ goal ∈ (lostWithAllGoals realMath).goals, goal.collected = true) := by
  obtain ⟨hs, hg, _, _⟩ := lostWithAllGoals_eval realMath_exact
  have hall : ∀ goal ∈ (lostWithAllGoals realMath).goals, goal.collected = true := by
    rw [hg]
    intro goal hmem
    simp only [List.mem_cons, List.mem_singleton, List.not_mem_nil, or_false] at hmem
    rcases hmem with rfl | rfl | rfl <;> rfl
  refine ⟨lostWithAllGoals_reachable realMath, hall, hs, fun hiff => ?_⟩
  have hw := hiff.mpr hall
  rw [hs] at hw
  exact absurd hw (by decide)

/-- C4 (amended): in every state reachable from `resetGame` by `updateGame`
calls with `dt ≥ 0`, key events and toggles, the outcome is Won if and only if
every goal is collected and the outcome is not Lost. -/
theorem won_iff_all_collected_not_lost (m : MathLib K) (g : Game K)
    (h : Reachable m (fun dt => 0 ≤ dt) g) :
    g.gameState = STATE_WIN ↔
      ((∀ goal ∈ g.goals, goal.collected = true) ∧ g.gameState ≠ STATE_LOSE) := by
  obtain ⟨h1, h2⟩ := outcome_invariant m _ g h
  rw [← goalsRemaining_eq_zero_iff]
  constructor
  · intro hw
    exact ⟨h1 hw, by rw [hw]; decide⟩
  · rintro ⟨h0, hl⟩
    have hp := h2 h0
    cases hs : g.gameState
    · exact absurd hs hp
    · rfl
    · exact absurd hs hl

/-- Witness for C4 (amended): the session right after `resetGame`, the up key
and a step of a fifth of a second. -/
theorem won_iff_all_collected_not_lost_witness :
    (updateGame realMath (1 / 5) (Keyboard 'r' 0 (resetGame 0 initialGame))).gameState
        = STATE_WIN ↔
      ((∀ goal ∈ (updateGame realMath (1 / 5) (Keyboard 'r' 0 (resetGame 0 initialGame))).goals,
          goal.collected = true) ∧
        (updateGame realMath (1 / 5) (Keyboard 'r' 0 (resetGame 0 initialGame))).gameState
          ≠ STATE_LOSE) :=
  won_iff_all_collected_not_lost realMath _
    (Reachable.update (1 / 5) (by norm_num)
      (Reachable.keyDown 'r' 0 (Reachable.reset 0 initialGame)))

/-- C5 (timer equation): in a Playing state with `remainingTime = prev`,
after `updateGame dt` the remaining time is exactly `max 0 (prev - dt)`, for
every `dt`; hence, for `dt ≥ 0`, a step from a non-negative remaining time (as
after `resetGame`) does not increase it, and after any step every following
step with `dt2 ≥ 0` does not increase it either, whatever happened to the other
fields in between. -/
theorem timer_equation (m : MathLib K) (g : Game K) (dt : K)
    (h : g.gameState = STATE_PLAYING) :
    (updateGame m dt g).remainingTime = max 0 (g.remainingTime - dt) ∧
    (0 ≤ dt → 0 ≤ g.remainingTime → (updateGame m dt g).remainingTime ≤ g.remainingTime) ∧
    ∀ (g2 : Game K) (dt2 : K), g2.remainingTime = (updateGame m dt g).remainingTime →
      0 ≤ dt2 → (updateGame m dt2 g2).remainingTime ≤ g2.remainingTime := by
  refine ⟨?_, fun hdt hrt => updateGame_remainingTime_le m dt g hdt hrt, ?_⟩
  · rw [updateGame_playing_eq m dt g h]
  · intro g2 dt2 h2 hdt2
    refine updateGame_remainingTime_le m dt2 g2 hdt2 ?_
    rw [h2]
    exact updateGame_remainingTime_nonneg m dt g h

/-- Witness for C5: the first step after `resetGame`. -/
theorem timer_equation_witness :
    (updateGame realMath 1 (resetGame 0 initialGame)).remainingTime =
        max 0 ((resetGame 0 initialGame : Game ℝ).remainingTime - 1) ∧
    ((0 : ℝ) ≤ 1 → 0 ≤ (resetGame 0 initialGame : Game ℝ).remainingTime →
      (updateGame realMath 1 (resetGame 0 initialGame)).remainingTime ≤
        (resetGame 0 initialGame : Game ℝ).remainingTime) ∧
    ∀ (g2 : Game ℝ) (dt2 : ℝ),
      g2.remainingTime = (updateGame realMath 1 (resetGame 0 initialGame)).remainingTime →
      0 ≤ dt2 → (updateGame realMath dt2 g2).remainingTime ≤ g2.remainingTime :=
  timer_equation realMath (resetGame 0 initialGame) 1 rfl

/-- C6 (time-out resolution): in a Playing state with `remainingTime - dt ≤ 0`
(the boundary `= 0` included), `updateGame dt` sets `remainingTime` to 0 and
leaves Playing: the outcome is Lost when some goal was uncollected at the
start of the step, and Won when none was. -/
theorem timeout_resolution (m : MathLib K) (g : Game K) (dt : K)
    (h : g.gameState = STATE_PLAYING) (ht : g.remainingTime - dt ≤ 0) :
    (updateGame m dt g).remainingTime = 0 ∧
    (updateGame m dt g).gameState ≠ STATE_PLAYING ∧
    ((∃ goal ∈ g.goals, goal.collected = false) →
      (updateGame m dt g).gameState = STATE_LOSE) ∧
    ((∀ goal ∈ g.goals, goal.collected = true) →
      (updateGame m dt g).gameState = STATE_WIN) := by
  rw [updateGame_playing_eq m dt g h]
  simp only [timerState, if_pos ht, max_eq_left ht]
  refine ⟨trivial, ?_, ?_, ?_⟩
  · by_cases hg : goalsRemaining g.goals = 0 <;> simp [hg]
  · rintro ⟨goal, hmem, hc⟩
    have hg : goalsRemaining g.goals ≠ 0 := by
      intro h0
      have := (goalsRemaining_eq_zero_iff g.goals).mp h0 goal hmem
      rw [hc] at this
      exact Bool.false_ne_true this
    simp [hg]
  · intro hall
    have hg : goalsRemaining g.goals = 0 := (goalsRemaining_eq_zero_iff g.goals).mpr hall
    simp [hg]

/-- Witness for C6: the clock runs out exactly (`1 - 1 = 0`) with one goal
uncollected. -/
theorem timeout_resolution_witness :
    (updateGame realMath 1 (lastGoalAtTimeout : Game ℝ)).remainingTime = 0 ∧
    (updateGame realMath 1 (lastGoalAtTimeout : Game ℝ)).gameState ≠ STATE_PLAYING ∧
    ((∃ goal ∈ (lastGoalAtTimeout : Game ℝ).goals, goal.collected = false) →
      (updateGame realMath 1 (lastGoalAtTimeout : Game ℝ)).gameState = STATE_LOSE) ∧
    ((∀ goal ∈ (lastGoalAtTimeout : Game ℝ).goals, goal.collected = true) →
      (updateGame realMath 1 (lastGoalAtTimeout : Game ℝ)).gameState = STATE_WIN) :=
  timeout_resolution realMath lastGoalAtTimeout 1 rfl (by simp [lastGoalAtTimeout])

/-- C7 (goal-collection postcondition): after `updateGame dt` on a Playing
state, the goal list is the old one with each goal's `collected` replaced by
`collected || (length (position' - goal.position) < GOAL_RADIUS)`, where
`position'` is the player position after the movement and the clamps of that
same step; the list keeps its length and every goal its position, and a goal
at distance exactly `GOAL_RADIUS = 0.12` that was uncollected stays
uncollected. -/
theorem goal_collection_postcondition (m : MathLib K) (g : Game K) (dt : K)
    (h : g.gameState = STATE_PLAYING) :
    (updateGame m dt g).player.position = clampPosition (movedPosition m dt g) ∧
    (updateGame m dt g).goals =
      g.goals.map (fun goal =>
        ⟨goal.position,
          goal.collected ||
            decide (((updateGame m dt g).player.position.sub goal.position).length m
              < GOAL_RADIUS)⟩) ∧
    (updateGame m dt g).goals.length = g.goals.length ∧
    (∀ i : Nat, ((updateGame m dt g).goals[i]?).map Goal.position =
      (g.goals[i]?).map Goal.position) ∧
    (GOAL_RADIUS : K) = 0.12 ∧
    ∀ (i : Nat) (goal : Goal K), g.goals[i]? = some goal → goal.collected = false →
      ((updateGame m dt g).player.position.sub goal.position).length m = GOAL_RADIUS →
      ((updateGame m dt g).goals[i]?).map Goal.collected = some false := by
  have hmap : (updateGame m dt g).goals =
      g.goals.map (collectOne m (updateGame m dt g).player.position) := by
    rw [updateGame_playing_eq m dt g h]
    simp only [collectGoals_eq_map]
  refine ⟨?_, hmap, ?_, ?_, rfl, ?_⟩
  · rw [updateGame_playing_eq m dt g h]
  · rw [hmap, List.length_map]
  · intro i
    rw [updateGame_goals_getElem? m dt g h i]
    cases g.goals[i]? <;> simp [collectOne]
  · intro i goal hi hc hd
    rw [updateGame_goals_getElem? m dt g h i, hi]
    simp [collectOne, hc, hd]

/-- Witness for C7: the step of `lastGoalAtTimeout`. -/
theorem goal_collection_postcondition_witness :
    (updateGame realMath 1 (lastGoalAtTimeout : Game ℝ)).goals.length =
      (lastGoalAtTimeout : Game ℝ).goals.length :=
  (goal_collection_postcondition realMath lastGoalAtTimeout 1 rfl).2.2.1

/-- C8 (collected goals stay collected): a goal that is collected before
`updateGame dt` is collected afterwards, in every state and for every `dt`;
key releases, key presses other than the restart key, and the animation
toggles leave the goal list as it is, and `resetGame` makes every goal
uncollected. -/
theorem collected_stays_collected (m : MathLib K) (g : Game K) (dt : K) (i : Nat)
    (goal : Goal K) (hi : g.goals[i]? = some goal) (hc : goal.collected = true) :
    ((updateGame m dt g).goals[i]?).map Goal.collected = some true ∧
    (∀ key : Char, (KeyboardUp key g).goals = g.goals) ∧
    (∀ (key : Char) (now : Int), key ≠ 'p' → key ≠ 'P' →
      (Keyboard key now g).goals = g.goals) ∧
    (∀ index : Int, (toggleAnimation index g).goals = g.goals) ∧
    (toggleAllAnimations g).goals = g.goals ∧
    (stopAllAnimations g).goals = g.goals ∧
    ∀ (now : Int), ∀ goal0 ∈ (resetGame now g).goals, goal0.collected = false := by
  refine ⟨?_, fun key => KeyboardUp_goals key g,
    fun key now h1 h2 => Keyboard_goals key now g h1 h2,
    fun index => toggleAnimation_goals index g, rfl, rfl, ?_⟩
  · by_cases h : g.gameState = STATE_PLAYING
    · rw [updateGame_goals_getElem? m dt g h i, hi]
      simp [collectOne, hc]
    · rw [updateGame_of_not_playing m dt g h, hi]
      simp [hc]
  · intro now goal0 hmem
    simp only [resetGame, initGoals, List.mem_cons, List.mem_singleton, List.not_mem_nil,
      or_false] at hmem
    rcases hmem with rfl | rfl | rfl <;> rfl

/-- Witness for C8: the first goal of `lastGoalAtTimeout`, already collected. -/
theorem collected_stays_collected_witness :
    ((updateGame realMath 1 (lastGoalAtTimeout : Game ℝ)).goals[0]?).map Goal.collected =
      some true :=
  (collected_stays_collected realMath lastGoalAtTimeout 1 0 ⟨⟨-0.55, 0.12, -0.45⟩, true⟩
    rfl rfl).1

/-- C9 (scenario B, immediate win): in a Playing state whose player stands
exactly on a goal inside the play-field bounds (uncollected, or collected
already), with no intent flag set and `dt < remainingTime` (so in particular
for `0 ≤ dt`), that goal is collected after `updateGame dt`; if every other
goal was already collected the outcome becomes Won in that same step, with
`remainingTime` still positive.  The square root is only asked to map 0 to
0. -/
theorem immediate_win (m : MathLib K) (hs : m.sqrtf 0 = 0) (g : Game K) (dt : K) (i : Nat)
    (goal : Goal K) (h : g.gameState = STATE_PLAYING) (hi : g.goals[i]? = some goal)
    (hpos : g.player.position = goal.position)
    (hin : inBounds goal.position)
    (hf : g.moveForward = false) (hb : g.moveBackward = false) (hl : g.moveLeft = false)
    (hr : g.moveRight = false) (hu : g.moveUp = false) (hd : g.moveDown = false)
    (hrt : dt < g.remainingTime) :
    ((updateGame m dt g).goals[i]?).map Goal.collected = some true ∧
    ((∀ (j : Nat) (goalj : Goal K), j ≠ i → g.goals[j]? = some goalj →
        goalj.collected = true) →
      (updateGame m dt g).gameState = STATE_WIN ∧ 0 < (updateGame m dt g).remainingTime) := by
  have hR : (0 : K) < GOAL_RADIUS := by norm_num [GOAL_RADIUS]
  have hmv : clampPosition (movedPosition m dt g) = goal.position := by
    rw [movedPosition_idle m hs dt g hf hb hl hr hu hd, hpos, clampPosition_of_inBounds _ hin]
  have hone : (collectOne m goal.position goal).collected = true := by
    simp [collectOne, length_sub_self m hs, hR]
  have hnt : ¬ g.remainingTime - dt ≤ 0 := not_le.mpr (sub_pos.mpr hrt)
  refine ⟨?_, fun hall => ?_⟩
  · rw [updateGame_goals_getElem? m dt g h i, hi, updateGame_playing_eq m dt g h]
    simp only [hmv, Option.map_some', hone]
  · have hzero : goalsRemaining (collectGoals m goal.position g.goals) = 0 := by
      rw [goalsRemaining_eq_zero_iff, collectGoals_eq_map]
      intro goal1 hmem
      obtain ⟨g0, hg0, rfl⟩ := List.mem_map.mp hmem
      obtain ⟨j, hj⟩ := List.getElem?_of_mem hg0
      by_cases hji : j = i
      · rw [hji, hi] at hj
        rw [← Option.some.inj hj]
        exact hone
      · simp [collectOne, hall j g0 hji hj]
    rw [updateGame_playing_eq m dt g h]
    simp only [hmv, hzero, timerState, if_neg hnt, true_and, if_true]
    exact lt_max_of_lt_right (sub_pos.mpr hrt)

/-- Witness for C9: the player of `lastGoalAtTimeout` stands on the last
uncollected goal; half a second before the end the session is won. -/
theorem immediate_win_witness :
    ((updateGame realMath 0.5 (lastGoalAtTimeout : Game ℝ)).goals[2]?).map Goal.collected =
      some true ∧
    ((∀ (j : Nat) (goalj : Goal ℝ), j ≠ 2 → (lastGoalAtTimeout : Game ℝ).goals[j]? = some goalj →
        goalj.collected = true) →
      (updateGame realMath 0.5 (lastGoalAtTimeout : Game ℝ)).gameState = STATE_WIN ∧
        0 < (updateGame realMath 0.5 (lastGoalAtTimeout : Game ℝ)).remainingTime) :=
  immediate_win realMath realMath_sqrt_zero lastGoalAtTimeout 0.5 2 ⟨⟨0.1, 0.14, -0.05⟩, false⟩
    rfl rfl rfl (by simp only [inBounds]; norm_num) rfl rfl rfl rfl rfl rfl
    (by simp only [lastGoalAtTimeout]; norm_num)

/-- C10 (scenario E, reset): whatever the prior state, `resetGame` yields the
same session: 120 seconds, Playing, the three goals at their fixed places and
uncollected, the five animators inactive with phase 0, the player at the spawn
`(0, PLAYER_RADIUS = 0.05, 0)` with zero velocity, yaw and tilt and not
airborne, cosmetic phases 0, sound latches and the six intent flags false
(`lastTick` takes the current clock reading `now`). -/
theorem resetGame_restores (now : Int) (g : Game K) :
    resetGame now g =
      { player :=
          { position := ⟨0, 0.05, 0⟩, velocity := ⟨0, 0, 0⟩, yaw := 0, tilt := 0
            airborne := false }
        goals :=
          [⟨⟨-0.55, 0.12, -0.45⟩, false⟩, ⟨⟨0.58, 0.18, 0.32⟩, false⟩,
            ⟨⟨0.1, 0.14, -0.05⟩, false⟩]
        objectControllers := fun _ => ⟨false, 0⟩
        loseSoundPlayed := false
        winSoundPlayed := false
        gameState := STATE_PLAYING
        moveForward := false
        moveBackward := false
        moveLeft := false
        moveRight := false
        moveUp := false
        moveDown := false
        goalRotation := 0
        wallColorPhase := 0
        remainingTime := 120
        lastTick := now } ∧
    (PLAYER_RADIUS : K) = 0.05 ∧
    ∀ g2 : Game K, resetGame now g = resetGame now g2 := by
  refine ⟨?_, rfl, fun _ => rfl⟩
  have hanim : (resetAnimations : Fin 5 → AnimationController K) = fun _ => ⟨false, 0⟩ := by
    funext _
    simp only [resetAnimations, float_zero]
  simp only [resetGame, resetPlayer, hanim, initGoals, PLAYER_RADIUS, Vector3f.zero,
    float_zero]
  norm_num

/-- C11, as stated, fails on the program's binary32 arithmetic: ten
decrements of `remainingTime` by `0.1f`, starting from 120, leave
`119 + 1/65536` (119.000015), and after fewer decrements the value is not 119
either. -/
theorem scenario_A_timer_counterexample :
    (remainingTimeF32 (roundF32 0.1))^[10] 120 = 119 + 1 / 65536 ∧
    ∀ j : Nat, j ≤ 10 → (remainingTimeF32 (roundF32 0.1))^[j] 120 ≠ 119 := by
  constructor
  · rw [remainingTimeF32_iterate 10 (le_refl 10)]
    norm_num
  · intro j hj
    rw [remainingTimeF32_iterate j hj]
    intro h
    have hj2 : (j : ℚ) ≤ 10 := by exact_mod_cast hj
    field_simp at h
    linarith

/-- C11 (amended): in exact arithmetic, from `resetGame` with only the forward
key held, after `k` calls of `updateGame 0.1` (`k ≤ 10`) the player is at
`(0, 0.05, -0.065 * k)`: each step moves 0.065 in `-Z` and the position after
the step is the unclamped one; no goal is collected, the outcome stays
Playing and the remaining time is `120 - 0.1 * k`, so after the tenth step the
player is at `z = -0.65` with 119 seconds left. -/
theorem scenario_A_position (m : MathLib K) (hm : ExactSqrt m) (k : Nat) (hk : k ≤ 10) :
    (scenarioA m k).player.position = ⟨0, 0.05, -0.065 * (k : K)⟩ ∧
    (k < 10 →
      (scenarioA m (k + 1)).player.position = movedPosition m 0.1 (scenarioA m k) ∧
      (scenarioA m (k + 1)).player.position.z = (scenarioA m k).player.position.z - 0.065) ∧
    (scenarioA m k).goals = initGoals ∧
    (∀ goal ∈ (scenarioA m k).goals, goal.collected = false) ∧
    (scenarioA m k).gameState = STATE_PLAYING ∧
    (scenarioA m k).remainingTime = 120 - 0.1 * (k : K) ∧
    (scenarioA m 10).player.position = ⟨0, 0.05, -0.65⟩ ∧
    (scenarioA m 10).remainingTime = 119 := by
  obtain ⟨hs, hp, hg, hr⟩ := scenarioA_eval hm k hk
  obtain ⟨_, hp10, _, hr10⟩ := scenarioA_eval hm 10 (le_refl 10)
  refine ⟨hp, fun hlt => ?_, hg, ?_, hs, hr, ?_, ?_⟩
  · obtain ⟨_, hp1, _, _⟩ := scenarioA_eval hm (k + 1) (by omega)
    rw [scenarioA_moved hm k, hp1, hp]
    push_cast
    simp only [Vector3f.mk.injEq, true_and]
    constructor <;> ring
  · rw [hg]
    intro goal hmem
    simp only [initGoals, List.mem_cons, List.mem_singleton, List.not_mem_nil, or_false] at hmem
    rcases hmem with rfl | rfl | rfl <;> rfl
  · rw [hp10]
    norm_num
  · rw [hr10]
    norm_num

/-- Witness for C11 (amended): the tenth step, over the reals. -/
theorem scenario_A_position_witness :
    (scenarioA realMath 10).player.position = ⟨0, 0.05, -0.65⟩ ∧
    (scenarioA realMath 10).remainingTime = 119 :=
  (scenario_A_position realMath realMath_exact 10 (le_refl 10)).2.2.2.2.2.2

/-- C12, as stated, fails: after the first `updateGame 0.1` of scenario A the
yaw is 0 degrees, not 180. -/
theorem scenario_A_yaw_counterexample :
    (scenarioA realMath 1).player.yaw = 0 ∧ (scenarioA realMath 1).player.yaw ≠ 180 := by
  have h0 : (scenarioA realMath 1).player.yaw = 0 := by
    obtain ⟨h1, h2, h3, h4, _, _⟩ := scenarioA_intent realMath 0
    have hp : (scenarioA realMath 0).gameState = STATE_PLAYING := rfl
    rw [scenarioA_succ, updateGame_playing_eq realMath 0.1 _ hp]
    dsimp only
    rw [movedYaw_forward realMath realMath_sqrt_one _ h1 h2 h3 h4, realMath_atan2f_zero_one]
    norm_num
  refine ⟨h0, ?_⟩
  rw [h0]
  norm_num

/-- C12 (amended): from `resetGame` with only the forward key held, after
each `updateGame 0.1` call the player's yaw is 0 degrees: the direction is
`(0, 0, -1)` and the yaw is `atan2f(0, 1) * 180 / 3.14159265`.  Of the libm
functions only `sqrtf 1 = 1` and `atan2f 0 1 = 0` are used. -/
theorem scenario_A_yaw_zero (m : MathLib K) (hs : m.sqrtf 1 = 1) (hat : m.atan2f 0 1 = 0)
    (k : Nat) : (scenarioA m k).player.yaw = 0 := by
  induction k with
  | zero =>
    simp [scenarioA, steps, Keyboard, resetGame, resetPlayer, float_zero]
  | succ k ih =>
    obtain ⟨h1, h2, h3, h4, _, _⟩ := scenarioA_intent m k
    rw [scenarioA_succ]
    by_cases hp : (scenarioA m k).gameState = STATE_PLAYING
    · rw [updateGame_playing_eq m 0.1 _ hp]
      dsimp only
      rw [movedYaw_forward m hs _ h1 h2 h3 h4, hat]
      norm_num
    · rw [updateGame_of_not_playing m 0.1 _ hp]
      exact ih

/-- Witness for C12 (amended): the tenth step, over the reals. -/
theorem scenario_A_yaw_zero_witness : (scenarioA realMath 10).player.yaw = 0 :=
  scenario_A_yaw_zero realMath realMath_sqrt_one realMath_atan2f_zero_one 10

/-- C13 (normalised planar movement): in a Playing state with `dt ≥ 0` and a
non-zero summed planar direction, the `x` and `z` displacement applied before
the clamps is `unit(direction) * (PLAYER_SPEED * dt)`, the unit direction has
length 1, and the displacement has Euclidean length exactly `0.65 * dt`,
whatever the direction (diagonal or along an axis); when the displaced
position is inside the bounds this is also the displacement of the player
over the whole `updateGame dt` call. -/
theorem normalised_planar_movement (m : MathLib K) (hm : ExactSqrt m) (g : Game K) (dt : K)
    (h : g.gameState = STATE_PLAYING) (hdt : 0 ≤ dt) (hdir : direction g ≠ Vector3f.zero) :
    ((movedPosition m dt g).x =
        g.player.position.x + ((direction g).unit m).x * (PLAYER_SPEED * dt) ∧
      (movedPosition m dt g).z =
        g.player.position.z + ((direction g).unit m).z * (PLAYER_SPEED * dt)) ∧
    ((direction g).unit m).length m = 1 ∧
    m.sqrtf (((movedPosition m dt g).x - g.player.position.x)
          * ((movedPosition m dt g).x - g.player.position.x)
        + ((movedPosition m dt g).z - g.player.position.z)
          * ((movedPosition m dt g).z - g.player.position.z)) = 0.65 * dt ∧
    (inBounds (movedPosition m dt g) →
      m.sqrtf (((updateGame m dt g).player.position.x - g.player.position.x)
            * ((updateGame m dt g).player.position.x - g.player.position.x)
          + ((updateGame m dt g).player.position.z - g.player.position.z)
            * ((updateGame m dt g).player.position.z - g.player.position.z)) = 0.65 * dt) := by
  have hlen := (direction g).length_pos hm hdir
  obtain ⟨hx, hz⟩ := movedPosition_planar m dt g hlen
  have hu := (direction g).unit_normSq hm hdir
  have huy : ((direction g).unit m).y = 0 := by
    simp only [Vector3f.unit, if_neg (ne_of_gt hlen), Vector3f.div, direction_y, zero_div]
  rw [huy, mul_zero, add_zero] at hu
  have hc : (0 : K) ≤ 0.65 * dt := mul_nonneg (by norm_num) hdt
  have hs : m.sqrtf (((movedPosition m dt g).x - g.player.position.x)
          * ((movedPosition m dt g).x - g.player.position.x)
        + ((movedPosition m dt g).z - g.player.position.z)
          * ((movedPosition m dt g).z - g.player.position.z)) = 0.65 * dt := by
    have e : ((movedPosition m dt g).x - g.player.position.x)
          * ((movedPosition m dt g).x - g.player.position.x)
        + ((movedPosition m dt g).z - g.player.position.z)
          * ((movedPosition m dt g).z - g.player.position.z) = (0.65 * dt) * (0.65 * dt) := by
      rw [hx, hz]
      simp only [PLAYER_SPEED, add_sub_cancel_left]
      linear_combination (0.65 * dt) * (0.65 * dt) * hu
    rw [e]
    exact hm.sqrt_mul_self_eq _ hc
  refine ⟨⟨hx, hz⟩, (direction g).unit_length hm hdir, hs, fun hin => ?_⟩
  rw [(updateGame_playing_eq m dt g h)]
  simp only [clampPosition_of_inBounds _ hin]
  exact hs

/-- Witness for C13: forward and right held together (a diagonal), one second. -/
theorem normalised_planar_movement_witness :
    realMath.sqrtf
      (((movedPosition realMath 1 (Keyboard 'l' 0 (Keyboard 'i' 0 (resetGame 0 initialGame)))).x
            - (Keyboard 'l' 0 (Keyboard 'i' 0 (resetGame 0 initialGame)) : Game ℝ).player.position.x)
          * ((movedPosition realMath 1
              (Keyboard 'l' 0 (Keyboard 'i' 0 (resetGame 0 initialGame)))).x
            - (Keyboard 'l' 0 (Keyboard 'i' 0 (resetGame 0 initialGame)) : Game ℝ).player.position.x)
        + ((movedPosition realMath 1
              (Keyboard 'l' 0 (Keyboard 'i' 0 (resetGame 0 initialGame)))).z
            - (Keyboard 'l' 0 (Keyboard 'i' 0 (resetGame 0 initialGame)) : Game ℝ).player.position.z)
          * ((movedPosition realMath 1
              (Keyboard 'l' 0 (Keyboard 'i' 0 (resetGame 0 initialGame)))).z
            - (Keyboard 'l' 0 (Keyboard 'i' 0 (resetGame 0 initialGame)) : Game ℝ).player.position.z))
      = 0.65 * 1 :=
  (normalised_planar_movement realMath realMath_exact
    (Keyboard 'l' 0 (Keyboard 'i' 0 (resetGame 0 initialGame))) 1 rfl zero_le_one
    (by simp [direction, Keyboard, resetGame, Vector3f.zero, float_zero, float_one])).2.2.1

/-- C14 (prop phase advance): after `updateGame dt` on a Playing state every
animator keeps its `active` flag, and its phase is `phase + dt * speed i` when
it is active and unchanged when it is not, with
`speed = {1.2, 0.9, 1.6, 2.0, 1.4}`; an inactive animator that is toggled
after the step is active with the phase it had before the step. -/
theorem prop_phase_advance (m : MathLib K) (g : Game K) (dt : K)
    (h : g.gameState = STATE_PLAYING) :
    (∀ i : Fin 5,
      ((updateGame m dt g).objectControllers i).active = (g.objectControllers i).active ∧
      ((updateGame m dt g).objectControllers i).phase =
        if (g.objectControllers i).active then (g.objectControllers i).phase + dt * speed i
        else (g.objectControllers i).phase) ∧
    (speed : Fin 5 → K) = ![1.2, 0.9, 1.6, 2.0, 1.4] ∧
    ∀ i : Fin 5, (g.objectControllers i).active = false →
      (toggleAnimation (i : Nat) (updateGame m dt g)).objectControllers i =
        ⟨true, (g.objectControllers i).phase⟩ := by
  have hstep : ∀ i : Fin 5,
      ((updateGame m dt g).objectControllers i).active = (g.objectControllers i).active ∧
      ((updateGame m dt g).objectControllers i).phase =
        if (g.objectControllers i).active then (g.objectControllers i).phase + dt * speed i
        else (g.objectControllers i).phase := by
    intro i
    rw [updateGame_playing_eq m dt g h]
    simp only [updateAnimations]
    by_cases ha : (g.objectControllers i).active = true
    · simp [ha]
    · simp [ha]
  refine ⟨hstep, rfl, fun i hi => ?_⟩
  rw [toggleAnimation_in_range _ _ (by omega) (by omega)]
  obtain ⟨ha, hp⟩ := hstep i
  simp only [if_true]
  rw [ha, hp, hi]
  simp

/-- Witness for C14: the third animator switched on after `resetGame`, one
second. -/
theorem prop_phase_advance_witness :
    ((updateGame realMath 1 (toggleAnimation 2 (resetGame 0 initialGame))).objectControllers
        2).active =
      ((toggleAnimation 2 (resetGame 0 initialGame) : Game ℝ).objectControllers 2).active ∧
    ((updateGame realMath 1 (toggleAnimation 2 (resetGame 0 initialGame))).objectControllers
        2).phase =
      if ((toggleAnimation 2 (resetGame 0 initialGame) : Game ℝ).objectControllers 2).active then
        ((toggleAnimation 2 (resetGame 0 initialGame) : Game ℝ).objectControllers 2).phase
          + 1 * speed 2
      else ((toggleAnimation 2 (resetGame 0 initialGame) : Game ℝ).objectControllers 2).phase :=
  (prop_phase_advance realMath (toggleAnimation 2 (resetGame 0 initialGame)) 1
    (by rw [toggleAnimation_gameState]; rfl)).1 2

/-- C15 (toggles never touch phase): for `0 ≤ index < 5`,
`toggleAnimation index` negates the `active` flag of that animator, keeps
every other flag and every phase, and changes no field outside the
animators; `toggleAllAnimations` makes every animator active and
`stopAllAnimations` inactive, both keeping every phase and every other
field. -/
theorem toggles_keep_phase (g : Game K) (index : Int) (h0 : 0 ≤ index) (h5 : index < 5) :
    ((∀ j : Fin 5,
        ((toggleAnimation index g).objectControllers j).phase = (g.objectControllers j).phase ∧
        ((toggleAnimation index g).objectControllers j).active =
          if (j : Int) = index then !(g.objectControllers j).active
          else (g.objectControllers j).active) ∧
      { toggleAnimation index g with objectControllers := g.objectControllers } = g) ∧
    ((∀ j : Fin 5, (toggleAllAnimations g).objectControllers j =
        ⟨true, (g.objectControllers j).phase⟩) ∧
      { toggleAllAnimations g with objectControllers := g.objectControllers } = g) ∧
    ((∀ j : Fin 5, (stopAllAnimations g).objectControllers j =
        ⟨false, (g.objectControllers j).phase⟩) ∧
      { stopAllAnimations g with objectControllers := g.objectControllers } = g) := by
  refine ⟨⟨fun j => ?_, ?_⟩, ⟨fun _ => rfl, rfl⟩, ⟨fun _ => rfl, rfl⟩⟩
  · rw [toggleAnimation_in_range index g h0 h5]
    by_cases hj : (j : Int) = index <;> simp [hj]
  · rw [toggleAnimation_in_range index g h0 h5]

/-- Witness for C15: the third animator toggled after `resetGame`. -/
theorem toggles_keep_phase_witness :
    { toggleAnimation 2 (resetGame 0 initialGame : Game ℝ) with
      objectControllers := (resetGame 0 initialGame : Game ℝ).objectControllers } =
      resetGame 0 initialGame :=
  (toggles_keep_phase (resetGame 0 initialGame) 2 (by decide) (by decide)).1.2

/-- C16 (out-of-range toggle): for `index < 0` or `index ≥ 5`,
`toggleAnimation index` returns the session unchanged: every animator and
every other field. -/
theorem toggleAnimation_out_of_range (index : Int) (g : Game K)
    (h : index < 0 ∨ index ≥ 5) : toggleAnimation index g = g := by
  unfold toggleAnimation
  rw [dif_pos h]

/-- Witness for C16: the indices 7 and -1. -/
theorem toggleAnimation_out_of_range_witness :
    toggleAnimation 7 (resetGame 0 initialGame : Game ℝ) = resetGame 0 initialGame ∧
    toggleAnimation (-1) (resetGame 0 initialGame : Game ℝ) = resetGame 0 initialGame :=
  ⟨toggleAnimation_out_of_range 7 _ (Or.inr (by decide)),
    toggleAnimation_out_of_range (-1) _ (Or.inl (by decide))⟩

/-- C17, as stated, fails: the first step after `resetGame`, with `dt = 111`,
is the first step after which `remainingTime ≤ 10` (it goes from 120 to 9),
and `loseSoundPlayed` stays false. -/
theorem low_time_warning_counterexample :
    (10 : ℝ) < (resetGame 0 initialGame : Game ℝ).remainingTime ∧
    (resetGame 0 initialGame : Game ℝ).loseSoundPlayed = false ∧
    (updateGame realMath 111 (resetGame 0 initialGame)).remainingTime ≤ 10 ∧
    (updateGame realMath 111 (resetGame 0 initialGame)).loseSoundPlayed = false := by
  rw [updateGame_playing_eq realMath 111 _ rfl]
  simp only [resetGame]
  norm_num

/-- C17 (amended): in a session started by `resetGame` and advanced with
`dt ≥ 0`, on the first step after which `remainingTime ≤ 10` (before it the
session is Playing with more than 10 seconds left, and the latch is still
false) the buzzer is emitted, `loseSoundPlayed` becoming true, if and only if
that step leaves `remainingTime > 9.9`. -/
theorem low_time_warning_window (m : MathLib K) (g : Game K) (dt : K)
    (h : Reachable m (fun dt => 0 ≤ dt) g) (hp : g.gameState = STATE_PLAYING)
    (hgt : 10 < g.remainingTime) (h10 : (updateGame m dt g).remainingTime ≤ 10) :
    g.loseSoundPlayed = false ∧
    ((updateGame m dt g).loseSoundPlayed = true ↔ 9.9 < (updateGame m dt g).remainingTime) := by
  have hl : g.loseSoundPlayed = false := by
    cases hb : g.loseSoundPlayed
    · rfl
    · exact absurd (buzzer_invariant m g h hb) (not_le.mpr hgt)
  refine ⟨hl, ?_⟩
  rw [updateGame_playing_eq m dt g hp] at h10 ⊢
  dsimp only at h10 ⊢
  have h10' : g.remainingTime - dt ≤ 10 := le_trans (le_max_right _ _) h10
  have hmax : 9.9 < max 0 (g.remainingTime - dt) ↔ 9.9 < g.remainingTime - dt := by
    rw [lt_max_iff]
    constructor
    · rintro (h0 | h1)
      · norm_num at h0
      · exact h1
    · exact Or.inr
  rw [hmax]
  have h10'' : g.remainingTime - dt ≤ 10.0 := by norm_num; linarith
  simp [hl, h10'']

/-- Witness for C17 (amended): the step from 120 to exactly 10 seconds. -/
theorem low_time_warning_window_witness :
    (resetGame 0 initialGame : Game ℝ).loseSoundPlayed = false ∧
    ((updateGame realMath 110 (resetGame 0 initialGame)).loseSoundPlayed = true ↔
      9.9 < (updateGame realMath 110 (resetGame 0 initialGame)).remainingTime) :=
  low_time_warning_window realMath (resetGame 0 initialGame) 110
    (Reachable.reset 0 initialGame) rfl (by simp only [resetGame]; norm_num)
    (by rw [updateGame_playing_eq realMath 110 _ rfl]; simp only [resetGame]; norm_num)

/-- C18 (timer range invariant): in every state reachable from `resetGame` by
`updateGame dt` calls with `dt ≥ 0`, key events and toggles,
`0 ≤ remainingTime ≤ 120`. -/
theorem timer_range (m : MathLib K) (g : Game K)
    (h : Reachable m (fun dt => 0 ≤ dt) g) :
    0 ≤ g.remainingTime ∧ g.remainingTime ≤ 120 := by
  induction h with
  | reset now g0 =>
    simp only [resetGame]
    norm_num
  | @update g dt hdt _ ih =>
    by_cases hp : g.gameState = STATE_PLAYING
    · exact ⟨updateGame_remainingTime_nonneg m dt g hp,
        le_trans (updateGame_remainingTime_le m dt g hdt ih.1) ih.2⟩
    · rw [updateGame_of_not_playing m dt g hp]; exact ih
  | @keyDown g key now _ ih =>
    rcases Keyboard_cases key now g with he | ⟨_, _, hr⟩
    · rw [he]
      simp only [resetGame]
      norm_num
    · rw [hr]; exact ih
  | keyUp key _ ih => rw [KeyboardUp_remainingTime]; exact ih
  | toggle index _ ih => rw [toggleAnimation_remainingTime]; exact ih

/-- Witness for C18: `resetGame`, the forward key and a half-second step. -/
theorem timer_range_witness :
    0 ≤ (updateGame realMath 0.5 (Keyboard 'i' 0 (resetGame 0 initialGame))).remainingTime ∧
    (updateGame realMath 0.5 (Keyboard 'i' 0 (resetGame 0 initialGame))).remainingTime ≤ 120 :=
  timer_range realMath _
    (Reachable.update 0.5 (by norm_num)
      (Reachable.keyDown 'i' 0 (Reachable.reset 0 initialGame)))

/-- C19 (total normalisation): with an exact square root, the zero vector has
length 0, so `unit` takes its guarded branch and returns the zero vector; for
every non-zero `v` the length is not 0, `unit v` is `v / length v`, and
`unit v` has length 1. -/
theorem unit_total (m : MathLib K) (hm : ExactSqrt m) :
    (Vector3f.zero : Vector3f K).length m = 0 ∧
    (Vector3f.zero : Vector3f K).unit m = Vector3f.zero ∧
    ∀ v : Vector3f K, v ≠ Vector3f.zero →
      v.length m ≠ 0 ∧ v.unit m = v.div (v.length m) ∧ (v.unit m).length m = 1 := by
  have hz : (Vector3f.zero : Vector3f K).length m = 0 := by
    simp [Vector3f.length, Vector3f.zero, hm.sqrt_zero]
  refine ⟨hz, ?_, fun v hv => ?_⟩
  · simp only [Vector3f.unit, hz, if_true]
  · have hne : v.length m ≠ 0 := ne_of_gt (v.length_pos hm hv)
    refine ⟨hne, ?_, v.unit_length hm hv⟩
    simp only [Vector3f.unit, if_neg hne]

/-- Witness for C19: over the reals, with the vector `(3, 0, 4)`. -/
theorem unit_total_witness :
    ((⟨3, 0, 4⟩ : Vector3f ℝ).unit realMath).length realMath = 1 :=
  ((unit_total realMath realMath_exact).2.2 ⟨3, 0, 4⟩
    (by simp [Vector3f.zero])).2.2

/-- C21, as stated, fails on the program's binary32 arithmetic: with ascend
and descend both held and `dt = 2097152` seconds (a value the millisecond
clock can deliver), a player at height `0.55f` ends at height 0.5, because
`0.55f + 1048576` rounds to `1048576.5` before `1048576` is taken off again;
the claim gives `clamp(0.55f + 0.5 * dt * (1 - 1)) = 0.55f`. -/
theorem vertical_cancel_counterexample :
    heightF32 true true 2097152 (roundF32 0.55) = 1 / 2 ∧
    clampf (roundF32 0.55 + roundF32 0.5 * 2097152 * (1 - 1)) (roundF32 0.05) (roundF32 0.85)
      = roundF32 0.55 ∧
    roundF32 0.55 ≠ 1 / 2 := by
  have ha : roundF32 (roundF32 0.5 * 2097152) = 1048576 := by
    rw [roundF32_half, roundF32_eq 20 8388608 _ (by norm_num) (by norm_num [abs_of_pos])
      (by norm_num [abs_of_pos]) (by norm_num) (by norm_num)]
    norm_num
  have hup : roundF32 (9227469 / 16777216 + 1048576) = 1048576 + 1 / 2 := by
    rw [roundF32_eq 20 8388612 _ (by norm_num) (by norm_num [abs_of_pos])
      (by norm_num [abs_of_pos]) (by norm_num) (by norm_num)]
    norm_num
  have hdown : roundF32 (1048576 + 1 / 2 - 1048576) = 1 / 2 := by
    rw [roundF32_eq (-1) 8388608 _ (by norm_num) (by norm_num [abs_of_pos])
      (by norm_num [abs_of_pos]) (by norm_num) (by norm_num)]
    norm_num
  refine ⟨?_, ?_, ?_⟩
  · simp only [heightF32, if_true, ha, roundF32_055, hup, hdown, roundF32_005, roundF32_085]
    norm_num [clampf]
  · rw [roundF32_055, roundF32_half, roundF32_005, roundF32_085]
    norm_num [clampf]
  · rw [roundF32_055]
    norm_num

/-- C21 (amended): in exact arithmetic, after `updateGame dt` on a Playing
state the player's `y` is `v = y + PLAYER_ASCEND_SPEED * dt * ([ascend] -
[descend])` clamped into `[0.05, 0.85]`, that is `max 0.05 (min 0.85 v)`: 0.05
when `v` is below, 0.85 when `v` is above, `v` itself otherwise, with
`PLAYER_ASCEND_SPEED = 0.5`; with ascend and descend both held it is `y`
clamped; and replacing the four planar flags by any other values gives the
same `y`. -/
theorem vertical_movement (m : MathLib K) (g : Game K) (dt : K)
    (h : g.gameState = STATE_PLAYING) :
    (updateGame m dt g).player.position.y =
      max 0.05 (min 0.85 (g.player.position.y
        + PLAYER_ASCEND_SPEED * dt
          * ((if g.moveUp then 1 else 0) - (if g.moveDown then 1 else 0)))) ∧
    (g.player.position.y + PLAYER_ASCEND_SPEED * dt
        * ((if g.moveUp then 1 else 0) - (if g.moveDown then 1 else 0)) < 0.05 →
      (updateGame m dt g).player.position.y = 0.05) ∧
    (0.85 < g.player.position.y + PLAYER_ASCEND_SPEED * dt
        * ((if g.moveUp then 1 else 0) - (if g.moveDown then 1 else 0)) →
      (updateGame m dt g).player.position.y = 0.85) ∧
    (0.05 ≤ g.player.position.y + PLAYER_ASCEND_SPEED * dt
        * ((if g.moveUp then 1 else 0) - (if g.moveDown then 1 else 0)) →
      g.player.position.y + PLAYER_ASCEND_SPEED * dt
        * ((if g.moveUp then 1 else 0) - (if g.moveDown then 1 else 0)) ≤ 0.85 →
      (updateGame m dt g).player.position.y =
        g.player.position.y + PLAYER_ASCEND_SPEED * dt
          * ((if g.moveUp then 1 else 0) - (if g.moveDown then 1 else 0))) ∧
    (PLAYER_ASCEND_SPEED : K) = 0.5 ∧
    (g.moveUp = true → g.moveDown = true →
      (updateGame m dt g).player.position.y = max 0.05 (min 0.85 g.player.position.y)) ∧
    ∀ f b l r : Bool,
      (updateGame m dt
          { g with moveForward := f, moveBackward := b, moveLeft := l, moveRight := r }
        ).player.position.y = (updateGame m dt g).player.position.y := by
  have hle : (0.05 : K) ≤ 0.85 := by norm_num
  have hy : ∀ g1 : Game K, g1.gameState = STATE_PLAYING →
      (updateGame m dt g1).player.position.y =
        max 0.05 (min 0.85 (g1.player.position.y
          + PLAYER_ASCEND_SPEED * dt
            * ((if g1.moveUp then 1 else 0) - (if g1.moveDown then 1 else 0)))) := by
    intro g1 h1
    rw [updateGame_playing_eq m dt g1 h1]
    dsimp only
    rw [clampPosition_y, movedPosition_y, clampf_eq_max_min _ _ _ hle]
  refine ⟨hy g h, fun hlt => ?_, fun hgt => ?_, fun h1 h2 => ?_, rfl, fun hu hd => ?_,
    fun f b l r => ?_⟩
  · rw [hy g h, max_eq_left (le_trans (min_le_right _ _) (le_of_lt hlt))]
  · rw [hy g h, min_eq_left (le_of_lt hgt), max_eq_right hle]
  · rw [hy g h, min_eq_right h2, max_eq_right h1]
  · rw [hy g h, hu, hd]
    simp
  · have h2 : ({ g with moveForward := f, moveBackward := b, moveLeft := l, moveRight := r }
        : Game K).gameState = STATE_PLAYING := h
    rw [hy g h, hy _ h2]

/-- Witness for C21 (amended): ascend and right held for two seconds after
`resetGame`; the height `0.05 + 0.5 * 2` is cut to 0.85. -/
theorem vertical_movement_witness :
    (updateGame realMath 2 (setIntent false false false true true false
        (resetGame 0 initialGame))).player.position.y = 0.85 :=
  (vertical_movement realMath
    (setIntent false false false true true false (resetGame 0 initialGame)) 2 rfl).2.2.1
    (by simp only [setIntent, resetGame, resetPlayer, PLAYER_RADIUS, PLAYER_ASCEND_SPEED]
        norm_num)

/-- C22 (airborne and tilt are derived from height): in every state reachable
from `resetGame` by `updateGame` calls (any `dt`), key events and toggles,
`airborne` is true exactly when `|y - PLAYER_RADIUS| ≥ 0.002` and `tilt` is -20
when airborne and 0 otherwise; the key handlers never write the player (a key
release leaves it as it is, a key press leaves it as it is or restarts). -/
theorem airborne_tilt_derived (m : MathLib K) (g : Game K)
    (h : Reachable m (fun _ => True) g) :
    (g.player.airborne = true ↔ 0.002 ≤ |g.player.position.y - PLAYER_RADIUS|) ∧
    (g.player.tilt = if g.player.airborne then -20 else 0) ∧
    (∀ key : Char, (KeyboardUp key g).player = g.player) ∧
    ∀ (key : Char) (now : Int),
      Keyboard key now g = resetGame now g ∨ (Keyboard key now g).player = g.player := by
  suffices hd : heightDerived g.player from
    ⟨hd.1, hd.2, fun key => KeyboardUp_player key g, fun key now => Keyboard_cases_player key now g⟩
  induction h with
  | reset now g0 => exact resetGame_heightDerived now g0
  | @update g dt _ _ ih =>
    by_cases hp : g.gameState = STATE_PLAYING
    · exact updateGame_heightDerived m dt g hp
    · rw [updateGame_of_not_playing m dt g hp]; exact ih
  | @keyDown g key now _ ih =>
    rcases Keyboard_cases_player key now g with he | he
    · rw [he]; exact resetGame_heightDerived now g
    · rw [he]; exact ih
  | keyUp key _ ih => rw [KeyboardUp_player]; exact ih
  | toggle index _ ih => rw [toggleAnimation_player]; exact ih

/-- Witness for C22: `resetGame`, the ascend key and one step. -/
theorem airborne_tilt_derived_witness :
    ((updateGame realMath 0.2 (Keyboard 'r' 0 (resetGame 0 initialGame))).player.airborne = true ↔
      0.002 ≤ |(updateGame realMath 0.2 (Keyboard 'r' 0 (resetGame 0 initialGame))
        ).player.position.y - PLAYER_RADIUS|) ∧
    ((updateGame realMath 0.2 (Keyboard 'r' 0 (resetGame 0 initialGame))).player.tilt =
      if (updateGame realMath 0.2 (Keyboard 'r' 0 (resetGame 0 initialGame))).player.airborne
      then -20 else 0) :=
  ⟨(airborne_tilt_derived realMath _
      (Reachable.update 0.2 trivial (Reachable.keyDown 'r' 0 (Reachable.reset 0 initialGame)))).1,
    (airborne_tilt_derived realMath _
      (Reachable.update 0.2 trivial
        (Reachable.keyDown 'r' 0 (Reachable.reset 0 initialGame)))).2.1⟩

/-- C23 (yaw retained without net planar input): in a Playing state with an
in-bounds position, when forward and backward are both held or both released
and likewise left and right, the planar direction is zero and `updateGame dt`
leaves `yaw`, `x` and `z` unchanged.  The square root is only asked to map 0
to 0. -/
theorem yaw_retained (m : MathLib K) (hs : m.sqrtf 0 = 0) (g : Game K) (dt : K)
    (h : g.gameState = STATE_PLAYING) (hin : inBounds g.player.position)
    (hfb : g.moveForward = g.moveBackward) (hlr : g.moveLeft = g.moveRight) :
    direction g = Vector3f.zero ∧
    (updateGame m dt g).player.yaw = g.player.yaw ∧
    (updateGame m dt g).player.position.x = g.player.position.x ∧
    (updateGame m dt g).player.position.z = g.player.position.z := by
  have hd := direction_cancel g hfb hlr
  have hl : ¬ ((direction g).length m > 0.0) := by
    rw [hd]
    simp [Vector3f.length, Vector3f.zero, hs, float_zero]
  obtain ⟨⟨hx1, hx2⟩, ⟨hz1, hz2⟩, _⟩ := hin
  rw [updateGame_playing_eq m dt g h]
  dsimp only
  rw [clampPosition_eq]
  dsimp only
  have hmx : (movedPosition m dt g).x = g.player.position.x := by
    simp only [movedPosition, if_neg hl]
    split_ifs <;> rfl
  have hmz : (movedPosition m dt g).z = g.player.position.z := by
    simp only [movedPosition, if_neg hl]
    split_ifs <;> rfl
  refine ⟨hd, ?_, ?_, ?_⟩
  · simp only [movedYaw, if_neg hl]
  · rw [hmx, clampf_id _ _ _ hx1 hx2]
  · rw [hmz, clampf_id _ _ _ hz1 hz2]

/-- Witness for C23: forward and backward held together (and ascend). -/
theorem yaw_retained_witness :
    (updateGame realMath 0.2 (setIntent true true false false true false
        (resetGame 0 initialGame))).player.yaw =
      (setIntent true true false false true false (resetGame 0 initialGame) : Game ℝ).player.yaw :=
  (yaw_retained realMath realMath_sqrt_zero
    (setIntent true true false false true false (resetGame 0 initialGame)) 0.2 rfl
    (resetGame_inBounds 0 initialGame) rfl rfl).2.1

/-- C24 (the buzzer fires at most once per session): along any list of
inputs without a restart (ticks `updateGame dt` with any `dt`, negative ones
included, key presses and releases, toggles) the buzzer is emitted in at most
one step: a step that emits it sets `loseSoundPlayed`, and once
`loseSoundPlayed` is true it stays true and no later step emits. -/
theorem buzzer_at_most_once (m : MathLib K) (inputs : List (Input K)) (g : Game K)
    (hr : ∀ i ∈ inputs, isRestart i = false) :
    buzzerCount m inputs g ≤ 1 ∧
    (g.loseSoundPlayed = true →
      (inputs.foldl (fun s i => applyInput m i s) g).loseSoundPlayed = true ∧
      buzzerCount m inputs g = 0) ∧
    ∀ dt : K, buzzerFires dt g = true → (updateGame m dt g).loseSoundPlayed = true := by
  refine ⟨?_, fun h => ⟨?_, buzzerCount_latched m inputs g hr h⟩, fun dt hf => ?_⟩
  · induction inputs generalizing g with
    | nil => exact Nat.zero_le 1
    | cons i rest ih =>
      have hrest : ∀ j ∈ rest, isRestart j = false :=
        fun j hj => hr j (List.mem_cons_of_mem i hj)
      cases i with
      | tick dt =>
        simp only [buzzerCount]
        by_cases hf : buzzerFires dt g = true
        · have hl : (updateGame m dt g).loseSoundPlayed = true := by
            rw [updateGame_loseSoundPlayed, hf]; rfl
          rw [buzzerCount_latched m rest _ hrest hl, if_pos hf]
        · rw [if_neg hf, Nat.zero_add]
          exact ih _ hrest
      | press key now => exact ih _ hrest
      | release key => exact ih _ hrest
      | toggle index => exact ih _ hrest
  · induction inputs generalizing g with
    | nil => exact h
    | cons i rest ih =>
      rw [List.foldl_cons]
      exact ih _ (fun j hj => hr j (List.mem_cons_of_mem i hj))
        (applyInput_latched m i g (hr i (List.mem_cons_self i rest)) h)
  · rw [updateGame_loseSoundPlayed, hf]; rfl

/-- Witness for C24: the clock is driven to 10, back up to 15 by a negative
`dt`, and down to 10 again. -/
theorem buzzer_at_most_once_witness :
    buzzerCount realMath [Input.tick 110, Input.tick (-5), Input.tick 5]
      (resetGame 0 initialGame) ≤ 1 :=
  (buzzer_at_most_once realMath [Input.tick 110, Input.tick (-5), Input.tick 5]
    (resetGame 0 initialGame) (by simp [isRestart])).1

/-- C26 (Playing characterisation): in every state reachable from `resetGame`
by `updateGame` calls (any `dt`), key events and toggles, the outcome is
Playing if and only if `remainingTime > 0` and some goal is uncollected; a
lost session has `remainingTime = 0` and a won session has every goal
collected. -/
theorem playing_characterisation (m : MathLib K) (g : Game K)
    (h : Reachable m (fun _ => True) g) :
    (g.gameState = STATE_PLAYING ↔
      (0 < g.remainingTime ∧ ∃ goal ∈ g.goals, goal.collected = false)) ∧
    (g.gameState = STATE_LOSE → g.remainingTime = 0) ∧
    (g.gameState = STATE_WIN → ∀ goal ∈ g.goals, goal.collected = true) := by
  obtain ⟨hplay, hlose⟩ := playing_invariant m _ g h
  obtain ⟨hwin, _⟩ := outcome_invariant m _ g h
  have hex : (∃ goal ∈ g.goals, goal.collected = false) ↔ goalsRemaining g.goals ≠ 0 := by
    rw [Ne, goalsRemaining_eq_zero_iff]
    push_neg
    constructor
    · rintro ⟨goal, hm, hc⟩
      exact ⟨goal, hm, by rw [hc]; decide⟩
    · rintro ⟨goal, hm, hc⟩
      exact ⟨goal, hm, by cases hb : goal.collected <;> simp_all⟩
  refine ⟨⟨fun hp => ?_, fun hr => ?_⟩, hlose, fun hw => ?_⟩
  · exact ⟨(hplay hp).1, hex.mpr (hplay hp).2⟩
  · cases hs : g.gameState
    · rfl
    · exact absurd (hwin hs) (hex.mp hr.2)
    · exact absurd (hlose hs) (ne_of_gt hr.1)
  · exact (goalsRemaining_eq_zero_iff g.goals).mp (hwin hw)

/-- Witness for C26: the lost session `lostWithAllGoals`. -/
theorem playing_characterisation_witness :
    ((lostWithAllGoals realMath).gameState = STATE_PLAYING ↔
      (0 < (lostWithAllGoals realMath).remainingTime ∧
        ∃ goal ∈ (lostWithAllGoals realMath).goals, goal.collected = false)) ∧
    ((lostWithAllGoals realMath).gameState = STATE_LOSE →
      (lostWithAllGoals realMath).remainingTime = 0) ∧
    ((lostWithAllGoals realMath).gameState = STATE_WIN →
      ∀ goal ∈ (lostWithAllGoals realMath).goals, goal.collected = true) :=
  playing_characterisation realMath _
    (by
      unfold lostWithAllGoals
      exact Reachable.frame (Reachable.frame (Reachable.frame (Reachable.frame (Reachable.frame
        (Reachable.frame (Reachable.reset 0 initialGame) _ _ _ _ _ _ _ trivial)
        _ _ _ _ _ _ _ trivial) _ _ _ _ _ _ _ trivial) _ _ _ _ _ _ _ trivial)
        _ _ _ _ _ _ _ trivial) _ _ _ _ _ _ _ trivial)

/-- C27 (the two versions of the step agree away from the walls): if
`updateGame dt` of `P15-59-6188.cpp` yields a player position with `x` and `z`
in `[-0.92, 0.92]`, then `updateGame dt` of `P15_58_6188_Hatem.cpp` yields the
same remaining time, outcome, player, goals, animators and cosmetic phases:
the two results differ at most in `loseSoundPlayed`, which the first version
never writes. -/
theorem versions_agree (m : MathLib K) (g : Game K) (dt : K)
    (hx : -0.92 ≤ (P59.updateGame m dt g).player.position.x ∧
      (P59.updateGame m dt g).player.position.x ≤ 0.92)
    (hz : -0.92 ≤ (P59.updateGame m dt g).player.position.z ∧
      (P59.updateGame m dt g).player.position.z ≤ 0.92) :
    ((updateGame m dt g).remainingTime = (P59.updateGame m dt g).remainingTime ∧
      (updateGame m dt g).gameState = (P59.updateGame m dt g).gameState ∧
      (updateGame m dt g).player = (P59.updateGame m dt g).player ∧
      (updateGame m dt g).goals = (P59.updateGame m dt g).goals ∧
      (updateGame m dt g).objectControllers = (P59.updateGame m dt g).objectControllers ∧
      (updateGame m dt g).goalRotation = (P59.updateGame m dt g).goalRotation ∧
      (updateGame m dt g).wallColorPhase = (P59.updateGame m dt g).wallColorPhase) ∧
    updateGame m dt g =
      { P59.updateGame m dt g with loseSoundPlayed := (updateGame m dt g).loseSoundPlayed } ∧
    (P59.updateGame m dt g).loseSoundPlayed = g.loseSoundPlayed ∧
    (P59.updateGame m dt g).winSoundPlayed = g.winSoundPlayed ∧
    (updateGame m dt g).winSoundPlayed = g.winSoundPlayed := by
  by_cases hp : g.gameState = STATE_PLAYING
  · have hc : clampPosition (movedPosition m dt g) = P59.clampPosition (movedPosition m dt g) := by
      rw [P59.updateGame59_playing_eq m dt g hp] at hx hz
      dsimp only at hx hz
      rw [P59.clampPosition59_eq] at hx hz ⊢
      dsimp only at hx hz
      rw [clampPosition_eq,
        clampf_narrow _ (-0.92) 0.92 (-0.95) 0.95 (by norm_num) (by norm_num) hx.1 hx.2,
        clampf_narrow _ (-0.92) 0.92 (-0.95) 0.95 (by norm_num) (by norm_num) hz.1 hz.2]
    rw [updateGame_playing_eq m dt g hp, P59.updateGame59_playing_eq m dt g hp, hc]
    exact ⟨⟨rfl, rfl, rfl, rfl, rfl, rfl, rfl⟩, rfl, rfl, rfl, rfl⟩
  · have e1 : updateGame m dt g = g := updateGame_of_not_playing m dt g hp
    have e2 : P59.updateGame m dt g = g := by
      unfold P59.updateGame
      rw [if_pos hp]
    rw [e1, e2]
    exact ⟨⟨rfl, rfl, rfl, rfl, rfl, rfl, rfl⟩, rfl, rfl, rfl, rfl⟩

/-- Witness for C27: half a second forward from the spawn, far from the
walls. -/
theorem versions_agree_witness :
    (updateGame realMath 0.5 (setIntent true false false false false false
        (resetGame 0 initialGame))).player =
      (P59.updateGame realMath 0.5 (setIntent true false false false false false
        (resetGame 0 initialGame))).player := by
  have hpos : (P59.updateGame realMath 0.5 (setIntent true false false false false false
      (resetGame 0 initialGame))).player.position = ⟨0, 0.05, -0.325⟩ := by
    rw [P59.updateGame59_playing_eq realMath 0.5 _ rfl]
    dsimp only
    rw [movedPosition_axis realMath_exact _ _ (by decide), P59.clampPosition59_eq]
    simp only [axisMoved, setIntent, resetGame, resetPlayer, PLAYER_RADIUS, PLAYER_SPEED,
      float_zero]
    norm_num [clampf]
  exact (versions_agree realMath (setIntent true false false false false false
    (resetGame 0 initialGame)) 0.5 (by rw [hpos]; norm_num) (by rw [hpos]; norm_num)).1.2.2.1

/-- C28 (rotation resets the eye-to-center distance to 1): with an exact
square root and `cosf² + sinf² = 1`, for a camera with `eye ≠ center` whose
`up` has length 1 and is perpendicular to `center - eye`, after `rotateY a` the
length of `center - eye` is 1 while `eye` and `up` are unchanged; so the
distance is preserved exactly when it was 1 before. -/
theorem rotateY_distance_one (m : MathLib K) (hm : ExactSqrt m) (ht : ExactTrig m)
    (c : Camera K) (a : K) (hne : c.eye ≠ c.center) (hup : c.up.length m = 1)
    (hperp : c.up.dot (c.center.sub c.eye) = 0) :
    ((c.rotateY m a).center.sub (c.rotateY m a).eye).length m = 1 ∧
    (c.rotateY m a).eye = c.eye ∧
    (c.rotateY m a).up = c.up ∧
    (((c.rotateY m a).center.sub (c.rotateY m a).eye).length m
        = (c.center.sub c.eye).length m ↔ (c.center.sub c.eye).length m = 1) := by
  have h1 : ((c.rotateY m a).center.sub (c.rotateY m a).eye).length m = 1 := by
    unfold Vector3f.length
    rw [rotateY_normSq hm ht c a hne hup hperp]
    exact hm.sqrt_one
  refine ⟨h1, rfl, rfl, ?_⟩
  rw [h1]
  exact eq_comm

/-- Witness for C28: the top-view camera, at distance 2.2 from its center,
turned by 90 degrees. -/
theorem rotateY_distance_one_witness :
    (((topViewCamera : Camera ℝ).rotateY realMath 90).center.sub
      ((topViewCamera : Camera ℝ).rotateY realMath 90).eye).length realMath = 1 :=
  (rotateY_distance_one realMath realMath_exact realMath_trig topViewCamera 90
    (by simp [topViewCamera]; norm_num)
    (by simp [topViewCamera, Vector3f.length, realMath, float_zero, float_one])
    (by simp [topViewCamera, Vector3f.dot, Vector3f.sub, float_zero])).1

end Tidebreak
